import Mathlib

/-!
Verification of the Due conversation engine (episode / event / dispatcher core).

This file shallowly embeds the data model and operations of `due/event.py`,
`due/episode.py` and `due/util/time.py`: Python `datetime` values become a
record of calendar fields, dynamically-typed cells become a small sum type,
fallible Python code returns `Except`, and the mutable `LiveEpisode` loop
becomes explicit state passing with a structural fuel argument mirroring the
loop counter.
-/

namespace Due

/-- Errors raised by the embedded Python code.  The constructor records the
Python exception class; the message string is a short tag for the raise site
(Python messages are longer prose, which no code inspects). -/
inductive PyError
  | valueError (msg : String)
  | typeError (msg : String)
  | importError (msg : String)
  | indexError (msg : String)
  | overflowError (msg : String)
  | parserError (msg : String)
  | unmodelled (msg : String)
deriving DecidableEq

/-- Embedding of Python `datetime.datetime`: a plain record of the calendar
fields.  Range validity (as enforced by the `datetime` constructor) is the
separate predicate `PyDatetime.valid`. -/
structure PyDatetime where
  year : Nat
  month : Nat
  day : Nat
  hour : Nat
  minute : Nat
  second : Nat
  microsecond : Nat
deriving DecidableEq

/-- Length of a month, as in the Gregorian calendar used by `datetime`. -/
def daysInMonth (y m : Nat) : Nat :=
  if m = 2 then (if y % 4 = 0 && (y % 100 ≠ 0 || y % 400 = 0) then 29 else 28)
  else if m = 4 || m = 6 || m = 9 || m = 11 then 30
  else 31

/-- Field ranges accepted by the Python `datetime` constructor. -/
def PyDatetime.valid (d : PyDatetime) : Bool :=
  1 ≤ d.year && d.year ≤ 9999 && 1 ≤ d.month && d.month ≤ 12 &&
  1 ≤ d.day && d.day ≤ daysInMonth d.year d.month &&
  d.hour ≤ 23 && d.minute ≤ 59 && d.second ≤ 59 && d.microsecond ≤ 999999

/-- Days since 1970-01-01 of a calendar date (proleptic Gregorian), the
standard civil-from-days algorithm; used to embed `datetime + timedelta`. -/
def daysFromCivil (y0 m d : Int) : Int :=
  let y := if m ≤ 2 then y0 - 1 else y0
  let era := (if 0 ≤ y then y else y - 399) / 400
  let yoe := y - era * 400
  let doy := (153 * (if 2 < m then m - 3 else m + 9) + 2) / 5 + d - 1
  let doe := yoe * 365 + yoe / 4 - yoe / 100 + doy
  era * 146097 + doe - 719468

/-- Inverse of `daysFromCivil`. -/
def civilFromDays (z0 : Int) : Int × Int × Int :=
  let z := z0 + 719468
  let era := (if 0 ≤ z then z else z - 146096) / 146097
  let doe := z - era * 146097
  let yoe := (doe - doe / 1460 + doe / 36524 - doe / 146097) / 365
  let y := yoe + era * 400
  let doy := doe - (365 * yoe + yoe / 4 - yoe / 100)
  let mp := (5 * doy + 2) / 153
  let d := doy - (153 * mp + 2) / 5 + 1
  let m := if mp < 10 then mp + 3 else mp - 9
  (if m ≤ 2 then y + 1 else y, m, d)

/-- Seconds since the 1970 epoch of a `PyDatetime` (microseconds ignored:
the deltas produced by `parse_timedelta` are whole seconds). -/
def PyDatetime.toEpochSeconds (t : PyDatetime) : Int :=
  86400 * daysFromCivil t.year t.month t.day +
    3600 * t.hour + 60 * t.minute + t.second

/-- Embedding of Python `datetime + timedelta` for a whole-second delta: the
microsecond field is carried through unchanged. -/
def PyDatetime.addSeconds (t : PyDatetime) (delta : Int) : PyDatetime :=
  let total := t.toEpochSeconds + delta
  let days := Int.ediv total 86400
  let sod := Int.emod total 86400
  let c := civilFromDays days
  { year := c.1.toNat, month := c.2.1.toNat, day := c.2.2.toNat,
    hour := (Int.ediv sod 3600).toNat, minute := (Int.emod (Int.ediv sod 60) 60).toNat,
    second := (Int.emod sod 60).toNat, microsecond := t.microsecond }

/-- Decimal digit character for a value below 10. -/
def digCh (n : Nat) : Char := Char.ofNat (48 + n)

/-- Value of a decimal digit character. -/
def digVal (c : Char) : Nat := c.toNat - 48

/-- Two zero-padded decimal digits, as printed by `%02d` for in-range input. -/
def pad2 (n : Nat) : List Char := [digCh (n / 10 % 10), digCh (n % 10)]

/-- Four zero-padded decimal digits, as printed by `%04d` for in-range input. -/
def pad4 (n : Nat) : List Char :=
  [digCh (n / 1000 % 10), digCh (n / 100 % 10), digCh (n / 10 % 10), digCh (n % 10)]

/-- Six zero-padded decimal digits, as printed by `%06d` for in-range input. -/
def pad6 (n : Nat) : List Char :=
  [digCh (n / 100000 % 10), digCh (n / 10000 % 10), digCh (n / 1000 % 10),
   digCh (n / 100 % 10), digCh (n / 10 % 10), digCh (n % 10)]

/-- Character list of `datetime.isoformat()`: date, `T`, time, and a 6-digit
fraction exactly when the microsecond field is non-zero. -/
def PyDatetime.isoChars (t : PyDatetime) : List Char :=
  pad4 t.year ++ ('-' :: (pad2 t.month ++ ('-' :: (pad2 t.day ++ ('T' ::
    (pad2 t.hour ++ (':' :: (pad2 t.minute ++ (':' :: (pad2 t.second ++
    (if t.microsecond = 0 then [] else '.' :: pad6 t.microsecond)))))))))))

/-- Embedding of `datetime.isoformat()`. -/
def PyDatetime.isoformat (t : PyDatetime) : String := t.isoChars.asString

/-- Read exactly two decimal digits. -/
def parse2 : List Char → Except PyError (Nat × List Char)
  | c1 :: c2 :: rest =>
      if c1.isDigit && c2.isDigit then .ok (10 * digVal c1 + digVal c2, rest)
      else .error (.valueError "invalid-isoformat")
  | _ => .error (.valueError "invalid-isoformat")

/-- Read exactly four decimal digits. -/
def parse4 : List Char → Except PyError (Nat × List Char)
  | c1 :: c2 :: c3 :: c4 :: rest =>
      if c1.isDigit && c2.isDigit && c3.isDigit && c4.isDigit then
        .ok (1000 * digVal c1 + 100 * digVal c2 + 10 * digVal c3 + digVal c4, rest)
      else .error (.valueError "invalid-isoformat")
  | _ => .error (.valueError "invalid-isoformat")

/-- Require a specific next character. -/
def expectCh (c : Char) : List Char → Except PyError (List Char)
  | c' :: rest => if c' = c then .ok rest else .error (.valueError "invalid-isoformat")
  | [] => .error (.valueError "invalid-isoformat")

/-- Fractional part of an ISO time: exactly three or six digits ending the
string, as accepted by `datetime.fromisoformat`. -/
def parseFrac : List Char → Except PyError Nat
  | [c1, c2, c3] =>
      if c1.isDigit && c2.isDigit && c3.isDigit then
        .ok ((100 * digVal c1 + 10 * digVal c2 + digVal c3) * 1000)
      else .error (.valueError "invalid-isoformat")
  | [c1, c2, c3, c4, c5, c6] =>
      if c1.isDigit && c2.isDigit && c3.isDigit && c4.isDigit && c5.isDigit && c6.isDigit then
        .ok (100000 * digVal c1 + 10000 * digVal c2 + 1000 * digVal c3 +
          100 * digVal c4 + 10 * digVal c5 + digVal c6)
      else .error (.valueError "invalid-isoformat")
  | _ => .error (.valueError "invalid-isoformat")

/-- Time part `HH:MM[:SS[.fff[fff]]]` of an ISO string. -/
def parseIsoTime (l : List Char) : Except PyError (Nat × Nat × Nat × Nat) := do
  let (h, r1) ← parse2 l
  let r2 ← expectCh ':' r1
  let (mi, r3) ← parse2 r2
  match r3 with
  | [] => .ok (h, mi, 0, 0)
  | c :: r4 =>
      if c = ':' then do
        let (s, r5) ← parse2 r4
        match r5 with
        | [] => .ok (h, mi, s, 0)
        | c2 :: r6 =>
            if c2 = '.' then do
              let us ← parseFrac r6
              .ok (h, mi, s, us)
            else .error (.valueError "invalid-isoformat")
      else .error (.valueError "invalid-isoformat")

/-- Embedding of `datetime.fromisoformat` (CPython 3.7-3.10 strictness): a
`YYYY-MM-DD` date, then optionally one separator character of any kind and a
time part; timezone offsets, which the repository never produces, are not
modelled.  Field ranges are checked as by the `datetime` constructor. -/
def fromisoformat (s : String) : Except PyError PyDatetime := do
  let (y, r1) ← parse4 s.toList
  let r2 ← expectCh '-' r1
  let (mo, r3) ← parse2 r2
  let r4 ← expectCh '-' r3
  let (d, r5) ← parse2 r4
  let (h, mi, sec, us) ← match r5 with
    | [] => pure (0, 0, 0, 0)
    | _ :: t => parseIsoTime t
  let dt : PyDatetime := ⟨y, mo, d, h, mi, sec, us⟩
  if dt.valid then .ok dt else .error (.valueError "date-out-of-range")

/-- Embedding of a dynamically-typed Python value as it appears in saved
episodes and CSV cells: `None`, an `int`, a `str`, or a `datetime`. -/
inductive PyCell
  | pynone
  | pyint (n : Int)
  | pystr (s : String)
  | pydt (d : PyDatetime)
deriving DecidableEq

/-- Embedding of `due.util.time.convert_datetime`: a `datetime` passes
through, a string goes to `fromisoformat`; any other type makes
`fromisoformat` raise `TypeError` (it requires a `str` argument). -/
def convert_datetime : PyCell → Except PyError PyDatetime
  | .pydt d => .ok d
  | .pystr s => fromisoformat s
  | .pyint _ => .error (.typeError "fromisoformat-arg")
  | .pynone => .error (.typeError "fromisoformat-arg")

/-- Python `str.isdigit` for ASCII content: non-empty and all digits. -/
def isdigitStr (s : String) : Bool :=
  !s.toList.isEmpty && s.toList.all Char.isDigit

/-- Value of a non-empty digit string. -/
def natOfDigits (l : List Char) : Nat := l.foldl (fun a c => 10 * a + digVal c) 0

/-- One optional group `(\d+)u` of `TIMEDELTA_PATTERN`, matched at the current
position: succeeds exactly when a non-empty maximal digit run is followed
immediately by the unit character (greedy `\d+` with backtracking reduces to
this, as a shorter digit run would be followed by another digit). -/
def takeUnit (u : Char) (l : List Char) : Option (Nat × List Char) :=
  match l.dropWhile Char.isDigit with
  | c :: r =>
      if !(l.takeWhile Char.isDigit).isEmpty && c = u then
        some (natOfDigits (l.takeWhile Char.isDigit), r)
      else none
  | [] => none

/-- The lookahead `(?=\d+[dhms])` of `TIMEDELTA_PATTERN` at position 0:
a non-empty digit run followed by one of the four unit characters. -/
def timedeltaLookahead (l : List Char) : Bool :=
  !(l.takeWhile Char.isDigit).isEmpty &&
    (match l.dropWhile Char.isDigit with
     | c :: _ => c = 'd' || c = 'h' || c = 'm' || c = 's'
     | [] => false)

/-- The four sequential optional groups of `TIMEDELTA_PATTERN`, producing the
total seconds of the resulting `timedelta` (unmatched groups default to 0, as
`match.groups(default=0)` does). -/
def timedeltaGroups (l0 : List Char) : Nat :=
  let (d, l1) := match takeUnit 'd' l0 with | some (n, r) => (n, r) | none => (0, l0)
  let (h, l2) := match takeUnit 'h' l1 with | some (n, r) => (n, r) | none => (0, l1)
  let (m, l3) := match takeUnit 'm' l2 with | some (n, r) => (n, r) | none => (0, l2)
  let s := match takeUnit 's' l3 with | some (n, _) => n | none => 0
  86400 * d + 3600 * h + 60 * m + s

/-- The `datetime.timedelta` normalized-day bound: the constructor raises
`OverflowError` when the normalized day count's magnitude exceeds it. -/
def TIMEDELTA_DAYS_MAX : Nat := 999999999

/-- Embedding of the `datetime.timedelta` constructor on a whole number of
seconds (`days`/`hours`/`minutes`/`seconds` arguments already totalled): the
value normalizes to `total // 86400` days (Python floor division), and the
constructor raises `OverflowError` unless that day count has magnitude at
most 999999999; a `timedelta` is represented by its total seconds. -/
def timedeltaSeconds (total : Int) : Except PyError Int :=
  if Int.fdiv total 86400 < -(TIMEDELTA_DAYS_MAX : Int) ∨
      (TIMEDELTA_DAYS_MAX : Int) < Int.fdiv total 86400 then
    .error (.overflowError "timedelta-days")
  else .ok total

/-- Embedding of `due.util.time.parse_timedelta`.  An `int` or all-digit
string is a second count; otherwise the regex groups give the component
total; each path goes through the `timedelta` constructor and inherits its
`OverflowError`.  The leading `assert isinstance(delta, (int, str))` makes
other argument types an `AssertionError`, recorded as an unmodelled raise. -/
def parse_timedelta : PyCell → Except PyError Int
  | .pyint n => timedeltaSeconds n
  | .pystr s =>
      if isdigitStr s then timedeltaSeconds (natOfDigits s.toList : Int)
      else if timedeltaLookahead s.toList then
        timedeltaSeconds (timedeltaGroups s.toList : Int)
      else .error (.valueError "timedelta-format")
  | _ => .error (.unmodelled "parse_timedelta-assert")

/-- Python truthiness of a cell value. -/
def PyCell.truthy : PyCell → Bool
  | .pynone => false
  | .pyint n => n ≠ 0
  | .pystr s => s ≠ ""
  | .pydt _ => true

/-- Whether a cell is a `str`. -/
def PyCell.isStr : PyCell → Bool
  | .pystr _ => true
  | _ => false

/-- Embedding of `due.action.RecordedAction`, the repository's concrete
serializable Action (the one its tests exercise); `done` is its only state. -/
structure RecordedAction where
  done : Bool
deriving DecidableEq

/-- The saved form of an Action: `{'class': ..., 'data': ...}` where `data`
is `None` or the dict `{'done': bool}`. -/
structure SavedAction where
  className : String
  data : Option Bool
deriving DecidableEq

/-- Value of `full_class_name(RecordedAction)`. -/
def recordedActionClass : String := "due.action.RecordedAction"

/-- Embedding of `RecordedAction.save`. -/
def RecordedAction.save (a : RecordedAction) : SavedAction :=
  ⟨recordedActionClass, some a.done⟩

/-- Embedding of `Action.load`: `dynamic_import` of the saved class name,
then construction from the saved data (`data['done'] if data else False`).
Class names other than `RecordedAction` are not modelled (`ExampleAction`
takes no constructor data and would raise `TypeError`). -/
def Action.load (sa : SavedAction) : Except PyError RecordedAction :=
  if sa.className = recordedActionClass then .ok ⟨sa.data.getD false⟩
  else .error (.importError "dynamic_import")

/-- Payload of a live Event: `None`, a string (utterances), an int (as pandas
can produce when decoding the compact format), or an Action object. -/
inductive Payload
  | pynone
  | str (s : String)
  | int (n : Int)
  | action (a : RecordedAction)
deriving DecidableEq

/-- Payload field of a saved Event: as `Payload`, except that Action events
carry their saved dict, while an Action object attached to a non-Action event
passes through `Event.save` unconverted (`rawAction`). -/
inductive SavedPayload
  | pynone
  | str (s : String)
  | int (n : Int)
  | savedAction (sa : SavedAction)
  | rawAction (a : RecordedAction)
deriving DecidableEq

/-- The three Event types of `due.event.Event.Type`. -/
inductive EventType
  | Utterance
  | Leave
  | Action
deriving DecidableEq

/-- The wire tag of an event type (`Event.Type.<x>.value`). -/
def EventType.value : EventType → String
  | .Utterance => "utterance"
  | .Leave => "leave"
  | .Action => "action"

/-- Embedding of the enum lookup `Event.Type(tag)`: `ValueError` on an
unrecognized tag. -/
def EventType.ofTag (s : String) : Except PyError EventType :=
  if s = "utterance" then .ok .Utterance
  else if s = "leave" then .ok .Leave
  else if s = "action" then .ok .Action
  else .error (.valueError "enum-tag")

/-- Embedding of `due.event.Event`: the four namedtuple fields plus the
mutable `acted` attribute (not part of the tuple).  The `agent` field keeps
the dynamically-typed value the constructor accepted (a string, or any falsy
value such as `None`). -/
structure Event where
  type : EventType
  timestamp : PyDatetime
  agent : PyCell
  payload : Payload
  acted : Option PyDatetime
deriving DecidableEq

/-- Argument passed as `agent` to the Event constructor: either a plain
value, or a live `due.agent.Agent` object (identified here by its id), which
is what the constructor's `isinstance` check is there to reject. -/
inductive PyAgentArg
  | cell (c : PyCell)
  | handle (agentId : String)

/-- Python truthiness of an `agent` argument (a live object is truthy). -/
def PyAgentArg.truthy : PyAgentArg → Bool
  | .cell c => c.truthy
  | .handle _ => true

/-- Embedding of `Event.__init__`: the timestamp must be a `datetime`
instance, and a truthy non-`str` agent is rejected, in that order; on
success `acted` starts unset. -/
def Event.init (ty : EventType) (timestamp : PyCell) (agent : PyAgentArg)
    (payload : Payload) : Except PyError Event :=
  match timestamp with
  | .pydt t =>
      match agent with
      | .handle _ => .error (.valueError "agent-not-str")
      | .cell c =>
          if c.truthy && !c.isStr then .error (.valueError "agent-not-str")
          else .ok ⟨ty, t, c, payload, none⟩
  | _ => .error (.valueError "timestamp-not-datetime")

/-- Embedding of `Event.mark_acted`: store the given timestamp, defaulting to
the current time (`datetime.now()` is modelled as the ambient clock value
passed in by the caller). -/
def Event.mark_acted (e : Event) (timestamp : Option PyDatetime)
    (now : PyDatetime) : Event :=
  { e with acted := some (timestamp.getD now) }

/-- Python `==` on cell values (no cross-type numeric coercions arise in this
model: the cells are `None`, `int`, `str` and `datetime`). -/
def PyCell.pyEq : PyCell → PyCell → Bool
  | .pynone, .pynone => true
  | .pyint a, .pyint b => a == b
  | .pystr a, .pystr b => a == b
  | .pydt a, .pydt b => a == b
  | _, _ => false

/-- Python `==` on payloads.  `RecordedAction.__eq__` compares the `done`
flags; comparing an Action with a non-Action value would raise
`AttributeError` inside `__eq__`, which is modelled as inequality (no claim
exercises that corner). -/
def Payload.pyEq : Payload → Payload → Bool
  | .pynone, .pynone => true
  | .str a, .str b => a == b
  | .int a, .int b => a == b
  | .action a, .action b => a.done == b.done
  | _, _ => false

/-- Python `==` on Events: the namedtuple equality inherited from
`EventTuple`, comparing exactly the four tuple fields; the `acted` attribute
is not a tuple component. -/
def Event.pyEq (e1 e2 : Event) : Bool :=
  e1.type == e2.type && e1.timestamp == e2.timestamp &&
    e1.agent.pyEq e2.agent && e1.payload.pyEq e2.payload

/-- Saved form of an Event (`Event.save` output, or the record decoded from a
compact CSV row). -/
structure SavedEvent where
  type : PyCell
  timestamp : PyCell
  agent : PyCell
  payload : SavedPayload
deriving DecidableEq

/-- Embedding of `Event.save`: the type becomes its string tag, the timestamp
its ISO string; an Action event's payload is replaced by the Action's own
saved form.  Calling `.save()` on a non-Action payload of an Action-typed
event would raise `AttributeError`. -/
def Event.save (e : Event) : Except PyError SavedEvent := do
  let payload ← match e.type, e.payload with
    | .Action, .action a => pure (SavedPayload.savedAction a.save)
    | .Action, _ => .error (.unmodelled "payload-save-attr")
    | _, .pynone => pure SavedPayload.pynone
    | _, .str s => pure (SavedPayload.str s)
    | _, .int n => pure (SavedPayload.int n)
    | _, .action a => pure (SavedPayload.rawAction a)
  .ok { type := .pystr e.type.value,
        timestamp := .pystr e.timestamp.isoformat,
        agent := e.agent,
        payload := payload }

/-- Embedding of `Event.load`, evaluating as Python does left to right: the
enum lookup of the type tag, `convert_datetime` on the timestamp, the payload
(`Action.load` exactly for tag `"action"`), then the validating constructor.
Subscripting a non-dict Action payload raises `TypeError`; a dict payload on
a non-Action event is outside the model. -/
def Event.load (saved : SavedEvent) : Except PyError Event := do
  let tag ← match saved.type with
    | .pystr s => pure s
    | _ => .error (.valueError "enum-tag")
  let ty ← EventType.ofTag tag
  let t ← convert_datetime saved.timestamp
  let payload ← if tag = "action" then
      match saved.payload with
      | .savedAction sa => (Action.load sa).map Payload.action
      | _ => .error (.typeError "action-load-subscript")
    else
      match saved.payload with
      | .pynone => pure Payload.pynone
      | .str s => pure (Payload.str s)
      | .int n => pure (Payload.int n)
      | .rawAction a => pure (Payload.action a)
      | .savedAction _ => .error (.unmodelled "dict-payload")
  Event.init ty (.pydt t) (.cell saved.agent) payload

/-- Embedding of `due.episode.Episode`: two participant identities,
metadata, and the ordered event list. -/
structure Episode where
  starter_id : String
  invited_id : String
  id : String
  timestamp : PyDatetime
  events : List Event
deriving DecidableEq

/-- Python `==` on Episodes (`Episode.__eq__`): field-by-field comparison of
`(starter_id, invited_id, id, timestamp, events)`, the event list compared
element-wise by namedtuple equality. -/
def Episode.pyEq (a b : Episode) : Bool :=
  a.starter_id == b.starter_id && a.invited_id == b.invited_id &&
    a.id == b.id && a.timestamp == b.timestamp &&
    a.events.length == b.events.length &&
    (List.zip a.events b.events).all fun p => p.1.pyEq p.2

/-- Events field of a saved episode: a list of saved Events (standard
format) or of CSV lines (compact format). -/
inductive SavedEvents
  | std (events : List SavedEvent)
  | cpt (lines : List String)
deriving DecidableEq

/-- Saved form of an Episode.  The standard `Episode.save` stores the raw
`datetime` in `timestamp`, so the field is a dynamic cell. -/
structure SavedEpisode where
  id : String
  timestamp : PyCell
  starter_agent : String
  invited_agents : List String
  events : SavedEvents
  format : String
deriving DecidableEq

/-- Embedding of `json.dumps` on a saved Action dict, with the separators and
key order Python produces.  Class names coming from `full_class_name` contain
no characters needing JSON escapes. -/
def jsonOfSavedAction (sa : SavedAction) : String :=
  "\x7b\"class\": \"" ++ sa.className ++ "\", \"data\": " ++
    (match sa.data with
     | none => "null"
     | some b => "\x7b\"done\": " ++ (if b then "true" else "false") ++ "\x7d") ++
    "\x7d"

/-- Drop an expected literal from the front of a character list. -/
def dropLit (lit : List Char) (l : List Char) : Option (List Char) :=
  if lit.isPrefixOf l then some (l.drop lit.length) else none

/-- Embedding of `json.loads` restricted to the Action payload schema that
`Action.save`/`json.dumps` produce; other JSON inputs (which would load as
arbitrary objects and then fail inside `Action.load`) are not modelled. -/
def jsonLoadsAction (s : String) : Except PyError SavedAction := do
  let l := s.toList
  let l ← match dropLit "\x7b\"class\": \"".toList l with
    | some r => pure r
    | none => .error (.unmodelled "json-loads")
  let name := l.takeWhile (· ≠ '"')
  let l := l.dropWhile (· ≠ '"')
  let l ← match dropLit "\", \"data\": ".toList l with
    | some r => pure r
    | none => .error (.unmodelled "json-loads")
  if l = "null\x7d".toList then .ok ⟨name.asString, none⟩
  else if l = "\x7b\"done\": true\x7d\x7d".toList then .ok ⟨name.asString, some true⟩
  else if l = "\x7b\"done\": false\x7d\x7d".toList then .ok ⟨name.asString, some false⟩
  else .error (.unmodelled "json-loads")

/-- Whether `DataFrame.to_csv` must quote a field (QUOTE_MINIMAL with
separator `|`): it contains the separator, the quote character, or a line
break. -/
def needsQuote (s : String) : Bool :=
  s.toList.any fun c => c = '|' || c = '"' || c = '\n' || c = '\r'

/-- CSV quote escaping: double every quote character. -/
def escQuotes : List Char → List Char
  | [] => []
  | '"' :: cs => '"' :: '"' :: escQuotes cs
  | c :: cs => c :: escQuotes cs

/-- One field as written by `to_csv`. -/
def encodeField (s : String) : List Char :=
  if needsQuote s then '"' :: (escQuotes s.toList ++ ['"']) else s.toList

/-- The raw text `to_csv` writes for a cell: `None` renders empty, ints in
decimal, strings as themselves.  Arbitrary objects (which pandas would
stringify) are outside the model. -/
def csvCellString : PyCell → Except PyError String
  | .pynone => .ok ""
  | .pyint n => .ok (toString n)
  | .pystr s => .ok s
  | .pydt _ => .error (.unmodelled "to-csv-object")

/-- The cell a saved payload contributes to the DataFrame (after
`_compact_saved_event` has already JSON-encoded Action payloads). -/
def savedPayloadCell : SavedPayload → Except PyError PyCell
  | .pynone => .ok .pynone
  | .str s => .ok (.pystr s)
  | .int n => .ok (.pyint n)
  | _ => .error (.unmodelled "to-csv-object")

/-- Four raw cell texts joined into one CSV line with separator `|`. -/
def encodeRowCells (q : String × String × String × String) : String :=
  (encodeField q.1 ++ '|' :: (encodeField q.2.1 ++ '|' :: (encodeField q.2.2.1 ++
    '|' :: encodeField q.2.2.2))).asString

/-- One CSV line of a saved event, columns `type|timestamp|agent|payload`. -/
def writeRow (ev : SavedEvent) : Except PyError String := do
  let c1 ← csvCellString ev.type
  let c2 ← csvCellString ev.timestamp
  let c3 ← csvCellString ev.agent
  let pc ← savedPayloadCell ev.payload
  let c4 ← csvCellString pc
  .ok (encodeRowCells (c1, c2, c3, c4))

/-- Embedding of `_compact_saved_event`: exactly when the saved type equals
the `"action"` tag, the payload is replaced by its `json.dumps`. -/
def _compact_saved_event (e : SavedEvent) : Except PyError SavedEvent :=
  if e.type.pyEq (.pystr "action") then
    match e.payload with
    | .savedAction sa => .ok { e with payload := .str (jsonOfSavedAction sa) }
    | .pynone => .ok { e with payload := .str "null" }
    | .int n => .ok { e with payload := .str (toString n) }
    | _ => .error (.unmodelled "json-dumps")
  else .ok e

/-- The buffer `to_csv` produces: each row followed by a newline. -/
def joinLines (rows : List String) : List Char :=
  rows.foldr (fun r acc => r.toList ++ '\n' :: acc) []

/-- Python `str.split('\n')` on a character list. -/
def splitNewlines : List Char → List (List Char)
  | [] => [[]]
  | c :: cs =>
      if c = '\n' then [] :: splitNewlines cs
      else
        match splitNewlines cs with
        | l :: ls => (c :: l) :: ls
        | [] => [[c]]

/-- Embedding of `_compact_saved_episode`: saved events become CSV lines (the
buffer is split on newlines, dropping empty pieces), and the format tag flips
to `compact`. -/
def _compact_saved_episode (saved : SavedEpisode) : Except PyError SavedEpisode := do
  let events ← match saved.events with
    | .std evs => pure evs
    | .cpt _ => .error (.unmodelled "compact-of-compact")
  let events ← events.mapM _compact_saved_event
  let rows ← events.mapM writeRow
  let lines := ((splitNewlines (joinLines rows)).map List.asString).filter (· ≠ "")
  .ok { saved with events := .cpt lines, format := "compact" }

/-- Tokenizer state for one CSV line (pandas honors quotes only at the start
of a field; stray text after a closing quote is a parse error). -/
inductive TokMode
  | fieldStart
  | plain
  | quoted
  | afterQuote
  | bad

/-- Field tokenizer for one CSV line with separator `|`, doubling-style quote
escapes, and end of input closing any open quote. -/
def tokGo (mode : TokMode) (cur : List Char) (l : List Char)
    (fields : List String) : Except PyError (List String) :=
  match l with
  | [] =>
      match mode with
      | .bad => .error (.parserError "csv-quote")
      | _ => .ok (fields ++ [cur.reverse.asString])
  | c :: rest =>
      match mode with
      | .fieldStart =>
          if c = '"' then tokGo .quoted cur rest fields
          else if c = '|' then tokGo .fieldStart [] rest (fields ++ [cur.reverse.asString])
          else tokGo .plain (c :: cur) rest fields
      | .plain =>
          if c = '|' then tokGo .fieldStart [] rest (fields ++ [cur.reverse.asString])
          else tokGo .plain (c :: cur) rest fields
      | .quoted =>
          if c = '"' then tokGo .afterQuote cur rest fields
          else tokGo .quoted (c :: cur) rest fields
      | .afterQuote =>
          if c = '"' then tokGo .quoted (c :: cur) rest fields
          else if c = '|' then tokGo .fieldStart [] rest (fields ++ [cur.reverse.asString])
          else tokGo .bad cur rest fields
      | .bad => tokGo .bad cur rest fields

/-- Tokenize one CSV line into its fields. -/
def tokenizeRow (s : String) : Except PyError (List String) :=
  tokGo .fieldStart [] s.toList []

/-- Default missing-value tokens of `read_csv`. -/
def naTokens : List String :=
  ["", "#N/A", "#N/A N/A", "#NA", "-1.#IND", "-1.#QNAN", "-NaN", "-nan",
   "1.#IND", "1.#QNAN", "N/A", "NA", "NULL", "NaN", "n/a", "nan", "null"]

/-- Whether a raw field is read as missing. -/
def isNaTok (s : String) : Bool := naTokens.contains s

/-- ASCII whitespace as the C parser's `isspace_ascii` accepts it: the
numeric converters of `read_csv` skip it at either end of a field. -/
def isSpaceCh (c : Char) : Bool :=
  c = ' ' || c = '\t' || c = '\n' || c = '\x0b' || c = '\x0c' || c = '\r'

/-- A field with leading and trailing ASCII whitespace removed, as the
numeric converters of the `read_csv` tokenizer see it. -/
def stripWs (l : List Char) : List Char :=
  ((l.dropWhile isSpaceCh).reverse.dropWhile isSpaceCh).reverse

/-- Bound of the signed 64-bit integers `str_to_int64` produces. -/
def INT64_MAX : Nat := 9223372036854775807

/-- Whether a raw field parses as an integer by the tokenizer's
`str_to_int64`: optional surrounding whitespace, an optional sign, at least
one digit, and a value in the `int64` range (outside it the conversion
fails and the column falls through to the float path). -/
def isIntString (s : String) : Bool :=
  match stripWs s.toList with
  | '-' :: r => !r.isEmpty && r.all Char.isDigit && natOfDigits r ≤ INT64_MAX + 1
  | '+' :: r => !r.isEmpty && r.all Char.isDigit && natOfDigits r ≤ INT64_MAX
  | r => !r.isEmpty && r.all Char.isDigit && natOfDigits r ≤ INT64_MAX

/-- Characters that can appear in a numeric literal. -/
def floatChar (c : Char) : Bool :=
  c.isDigit || c = '.' || c = 'e' || c = 'E' || c = '+' || c = '-'

/-- The infinity words `precise_xstrtod` accepts after the optional sign,
case-insensitively. -/
def isInfLike (l : List Char) : Bool :=
  let low := l.map Char.toLower
  low = "inf".toList || low = "infinity".toList

/-- Conservative test for fields pandas may read as floats (whitespace
skipped by the converter, numeric-literal characters, or an infinity word);
such columns are left outside the model (no saved episode produces them). -/
def isFloatLike (s : String) : Bool :=
  let core := stripWs s.toList
  let body := match core with
    | '-' :: r => r
    | '+' :: r => r
    | r => r
  (!core.isEmpty && core.all floatChar && core.any Char.isDigit &&
    !isIntString s) || isInfLike body

/-- Boolean tokens of the `read_csv` C parser (its built-in
`_true_values`/`_false_values` sets). -/
def isBoolString (s : String) : Bool :=
  s = "True" || s = "TRUE" || s = "true" ||
    s = "False" || s = "FALSE" || s = "false"

/-- Integer value of a whitespace-padded signed digit string. -/
def intOfString (s : String) : Int :=
  match stripWs s.toList with
  | '-' :: r => -(natOfDigits r : Int)
  | '+' :: r => (natOfDigits r : Int)
  | r => (natOfDigits r : Int)

/-- Column-wise type inference of `read_csv` (int64 first, then boolean,
then float, then object): a column of missing values reads as missing, a
column of in-range integers as ints, and anything else as strings with
missing-value tokens becoming `NaN` (then `None` after the `replace`).
Columns pandas would read as floats (ints mixed with missing values, float
literals, out-of-range integers) or booleans are outside the model: no saved
episode produces them and no claim depends on them. -/
def inferColumn (cells : List String) : Except PyError (List PyCell) :=
  if cells.all isNaTok then .ok (cells.map fun _ => .pynone)
  else if cells.all (fun s => isNaTok s || isIntString s) then
    if cells.any isNaTok then .error (.unmodelled "int-na-column")
    else .ok (cells.map fun s => .pyint (intOfString s))
  else if cells.all (fun s => isNaTok s || isBoolString s) then
    .error (.unmodelled "bool-column")
  else if cells.all (fun s => isNaTok s || isIntString s || isFloatLike s) then
    .error (.unmodelled "float-column")
  else .ok (cells.map fun s => if isNaTok s then .pynone else .pystr s)

/-- One record of the DataFrame `read_csv` builds from compact lines, with
columns named `type, timestamp, agent, payload`. -/
structure CompactRow where
  type : PyCell
  timestamp : PyCell
  agent : PyCell
  payload : PyCell
deriving DecidableEq

/-- Rebuild records from the four inferred columns. -/
def rowsOfCols : List PyCell → List PyCell → List PyCell → List PyCell → List CompactRow
  | t :: ts, u :: us, a :: ags, p :: ps => ⟨t, u, a, p⟩ :: rowsOfCols ts us ags ps
  | _, _, _, _ => []

/-- The cell an object-typed column yields for one raw field: missing-value
tokens become `None`, anything else stays a string. -/
def cellOfRaw (s : String) : PyCell :=
  if isNaTok s then .pynone else .pystr s

/-- The record built from one raw field quadruple of an object-typed table. -/
def rowOfRaw (q : String × String × String × String) : CompactRow :=
  ⟨cellOfRaw q.1, cellOfRaw q.2.1, cellOfRaw q.2.2.1, cellOfRaw q.2.2.2⟩

/-- Raw text the agent cell of a saved event contributes to its CSV line
(`None` renders empty; other non-string cells do not occur for well-formed
events). -/
def agentRaw : PyCell → String
  | .pystr s => s
  | _ => ""

/-- Raw text the payload of a well-formed event contributes to its CSV line:
Action payloads are JSON-encoded, strings pass through, `None` renders
empty. -/
def compactPayloadRaw (e : Event) : String :=
  match e.type, e.payload with
  | .Action, .action a => jsonOfSavedAction a.save
  | _, .str s => s
  | _, _ => ""

/-- The four raw cell texts of a well-formed event's compact CSV line. -/
def compactRawQuad (e : Event) : String × String × String × String :=
  (e.type.value, e.timestamp.isoformat, agentRaw e.agent, compactPayloadRaw e)

/-- Embedding of `pd.read_csv` on the joined compact lines (with
`df.replace({np.nan: None})` folded in): blank lines are skipped, an empty
input raises (pandas `EmptyDataError`), short rows are padded with missing
fields, long rows are a parse error. -/
def readCSV (lines0 : List String) : Except PyError (List CompactRow) := do
  let lines := lines0.filter (· ≠ "")
  if lines.isEmpty then .error (.parserError "empty-data")
  else do
    let fieldss ← lines.mapM fun l => do
      let fs ← tokenizeRow l
      if fs.length ≤ 4 then pure (fs ++ List.replicate (4 - fs.length) "")
      else .error (.parserError "too-many-fields")
    let c1 ← inferColumn (fieldss.map fun fs => fs.getD 0 "")
    let c2 ← inferColumn (fieldss.map fun fs => fs.getD 1 "")
    let c3 ← inferColumn (fieldss.map fun fs => fs.getD 2 "")
    let c4 ← inferColumn (fieldss.map fun fs => fs.getD 3 "")
    .ok (rowsOfCols c1 c2 c3 c4)

/-- Embedding of `_uncompact_timestamp`: absolute parsing through
`convert_datetime` is tried first; only a `ValueError` falls back to a
relative offset added to the previous event's timestamp. -/
def _uncompact_timestamp (row : CompactRow) (last_timestamp : PyDatetime) :
    Except PyError PyDatetime :=
  match convert_datetime row.timestamp with
  | .ok t => .ok t
  | .error (.valueError _) =>
      (parse_timedelta row.timestamp).map fun d => last_timestamp.addSeconds d
  | .error e => .error e

/-- Embedding of `_uncompact_saved_event`: fix the timestamp, and JSON-decode
the payload exactly when the row's type equals the `"action"` tag
(`json.loads` on a non-string raises `TypeError`). -/
def _uncompact_saved_event (row : CompactRow) (last_timestamp : PyDatetime) :
    Except PyError SavedEvent := do
  let t ← _uncompact_timestamp row last_timestamp
  let payload ← if row.type.pyEq (.pystr "action") then
      match row.payload with
      | .pystr s => (jsonLoadsAction s).map SavedPayload.savedAction
      | _ => .error (.typeError "json-loads-arg")
    else
      match row.payload with
      | .pynone => pure SavedPayload.pynone
      | .pystr s => pure (SavedPayload.str s)
      | .pyint n => pure (SavedPayload.int n)
      | .pydt _ => .error (.unmodelled "datetime-cell")
  .ok { type := row.type, timestamp := .pydt t, agent := row.agent,
        payload := payload }

/-- The decoding loop of `_uncompact_saved_episode`: each decoded event's
timestamp (always a datetime cell) seeds the next row's relative offset. -/
def uncompactEvents : List CompactRow → PyDatetime → Except PyError (List SavedEvent)
  | [], _ => .ok []
  | row :: rest, last =>
      match _uncompact_saved_event row last with
      | .error e => .error e
      | .ok ev =>
          match uncompactEvents rest
              (match ev.timestamp with | .pydt d => d | _ => last) with
          | .error e => .error e
          | .ok evs => .ok (ev :: evs)

/-- Embedding of `_uncompact_saved_episode`: parse the joined lines, then
decode events accumulating timestamps from the episode's own creation
timestamp as the seed. -/
def _uncompact_saved_episode (ce : SavedEpisode) : Except PyError SavedEpisode := do
  let lines ← match ce.events with
    | .cpt ls => pure ls
    | .std _ => .error (.unmodelled "uncompact-of-std")
  let rows ← readCSV lines
  let seed ← convert_datetime ce.timestamp
  let evs ← uncompactEvents rows seed
  .ok { ce with events := .std evs, format := "standard" }

/-- Embedding of `Episode.save`: the standard dict (ids stringified, the
invited id in a one-element list, the raw creation `datetime`), compacted
when the `compact` format is requested. -/
def Episode.save (ep : Episode) (output_format : String) : Except PyError SavedEpisode := do
  let evs ← ep.events.mapM Event.save
  let result : SavedEpisode :=
    { id := ep.id, timestamp := .pydt ep.timestamp,
      starter_agent := ep.starter_id, invited_agents := [ep.invited_id],
      events := .std evs, format := "standard" }
  if output_format = "compact" then _compact_saved_episode result else .ok result

/-- Embedding of `Episode.load`: uncompact first when the format tag says
`compact`; then the starter id, the head of `invited_agents` (an
`IndexError` when the list is empty), the converted timestamp, and the
loaded events. -/
def Episode.load (saved0 : SavedEpisode) : Except PyError Episode := do
  let saved ← if saved0.format = "compact" then _uncompact_saved_episode saved0
    else pure saved0
  let invited ← match saved.invited_agents with
    | a :: _ => pure a
    | [] => .error (.indexError "invited-agents")
  let evs ← match saved.events with
    | .std es => pure es
    | .cpt _ => .error (.unmodelled "string-event")
  let t ← convert_datetime saved.timestamp
  let events ← evs.mapM Event.load
  .ok { starter_id := saved.starter_agent, invited_id := invited,
        id := saved.id, timestamp := t, events := events }

/-- Hard cap on the response cascade triggered by a single `add_event`. -/
def MAX_EVENT_RESPONSES : Nat := 200

/-- A live participant as the dispatcher sees it: its identity and its
`event_callback` contract.  The callback receives the event and the episode
it was acted in; the episode is passed as its current event list, the only
live-episode state a participant can act on in this model. -/
structure LiveAgent where
  id : String
  callback : Event → List Event → List Event

/-- State of a `LiveEpisode` that the dispatcher reads and writes: the two
participant handles and the event log.  The inherited `id`/`timestamp`
metadata plays no role in dispatch and is omitted here; `datetime.now()` is
modelled as the ambient clock `now`. -/
structure LiveEpisodeState where
  starter : LiveAgent
  invited : LiveAgent
  events : List Event
  now : PyDatetime

/-- Result of a dispatcher call: normal return, or a raised exception
together with the state as already mutated at the moment of the raise. -/
inductive DispatchResult
  | ok (st : LiveEpisodeState)
  | raised (err : PyError) (st : LiveEpisodeState)

/-- Embedding of `LiveEpisode.agent_by_id`: look the id up in the
`_agent_by_id` dict (keys are the two participant ids; if they collide the
later `invited` entry wins, hence it is consulted first) and raise
`ValueError` on a miss. -/
def LiveEpisodeState.agent_by_id (st : LiveEpisodeState) (agent_id : PyCell) :
    Except PyError LiveAgent :=
  match agent_id with
  | .pystr s =>
      if s = st.invited.id then .ok st.invited
      else if s = st.starter.id then .ok st.starter
      else .error (.valueError "agent-not-in-episode")
  | _ => .error (.valueError "agent-not-in-episode")

/-- Embedding of `LiveEpisode._other_agents`.  The source compares the agent
object against `self.invited` by identity; the handles returned by
`agent_by_id` are the two stored participants, so identity coincides with id
comparison here. -/
def LiveEpisodeState.other_agents (st : LiveEpisodeState) (agent : LiveAgent) :
    List LiveAgent :=
  if agent.id = st.invited.id then [st.starter] else [st.invited]

/-- One iteration body of the `while new_events:` loop of
`LiveEpisode.add_event`, up to the cap test: resolve the acting agent
(raising before anything is appended), append the event and mark it acted
(the source appends and then mutates the same object), then collect the
other participant's response events. -/
def cascadeStep (st : LiveEpisodeState) (e : Event) :
    PyError ⊕ (LiveEpisodeState × List Event) :=
  match st.agent_by_id e.agent with
  | .error err => .inl err
  | .ok agent =>
      let e1 := e.mark_acted none st.now
      let st1 := { st with events := st.events ++ [e1] }
      .inr (st1, (st1.other_agents agent).flatMap fun a => a.callback e1 st1.events)

/-- A loop iteration followed by the `break`: the remaining queue and the
fresh responses are appended to the log, marked acted, without notifying
anyone further. -/
def cascadeBreak (st : LiveEpisodeState) (e : Event) (rest : List Event) :
    DispatchResult :=
  match cascadeStep st e with
  | .inl err => .raised err st
  | .inr (st1, responses) =>
      .ok { st1 with
        events := st1.events ++ (rest ++ responses).map (·.mark_acted none st1.now) }

/-- The `while new_events:` loop of `LiveEpisode.add_event`, with the loop
counter turned into structural fuel: on entry to an iteration with counter
`c` the fuel is `MAX_EVENT_RESPONSES + 1 - c`, and the post-increment break
condition `count > MAX_EVENT_RESPONSES` is exactly `fuel ≤ 1`.  An empty
queue ends the loop (the trailing extend appends nothing). -/
def addEventGo : Nat → LiveEpisodeState → List Event → DispatchResult
  | _, st, [] => .ok st
  | 0, st, e :: rest => cascadeBreak st e rest
  | 1, st, e :: rest => cascadeBreak st e rest
  | fuel' + 2, st, e :: rest =>
      match cascadeStep st e with
      | .inl err => .raised err st
      | .inr (st1, responses) => addEventGo (fuel' + 1) st1 (rest ++ responses)

/-- Embedding of `LiveEpisode.add_event`: run the cascade loop seeded with
the one input event and counter 0 (fuel `MAX_EVENT_RESPONSES + 1`). -/
def LiveEpisode.add_event (st : LiveEpisodeState) (event : Event) : DispatchResult :=
  addEventGo (MAX_EVENT_RESPONSES + 1) st [event]

/-- Result of the asynchronous `add_event`: the synchronously-mutated state
plus the notification tasks handed to the scheduler (each will invoke one
agent's callback later), or a raised exception with the state as already
mutated. -/
inductive AsyncDispatchResult
  | ok (st : LiveEpisodeState) (tasks : List (LiveAgent × Event))
  | raised (err : PyError) (st : LiveEpisodeState)

/-- Embedding of `AsyncLiveEpisode.add_event`: append the event and mark it
acted first, then resolve the acting agent (raising `ValueError` on an
unknown id, after the append), then schedule one notification task per other
participant. -/
def AsyncLiveEpisode.add_event (st : LiveEpisodeState) (event : Event) :
    AsyncDispatchResult :=
  let e1 := event.mark_acted none st.now
  let st1 := { st with events := st.events ++ [e1] }
  match st1.agent_by_id event.agent with
  | .error err => .raised err st1
  | .ok agent => .ok st1 ((st1.other_agents agent).map fun a => (a, e1))

/-- Event log of a dispatch result, raised or not. -/
def DispatchResult.resultEvents : DispatchResult → List Event
  | .ok st => st.events
  | .raised _ st => st.events

/-- Whether a dispatch returned normally. -/
def DispatchResult.isOk : DispatchResult → Bool
  | .ok _ => true
  | .raised _ _ => false

/-- Event log of an asynchronous dispatch result, raised or not. -/
def AsyncDispatchResult.resultEvents : AsyncDispatchResult → List Event
  | .ok st _ => st.events
  | .raised _ st => st.events

/-- Error raised by an asynchronous dispatch, if any. -/
def AsyncDispatchResult.raisedError : AsyncDispatchResult → Option PyError
  | .ok _ _ => none
  | .raised e _ => some e

/-- Error raised by a synchronous dispatch, if any. -/
def DispatchResult.raisedError : DispatchResult → Option PyError
  | .ok _ => none
  | .raised e _ => some e

/-- Decidable equality of fallible results, for stating and evaluating
round-trip properties. -/
instance {ε α : Type} [DecidableEq ε] [DecidableEq α] : DecidableEq (Except ε α) := fun a b =>
  match a, b with
  | .ok x, .ok y => if h : x = y then .isTrue (by rw [h]) else .isFalse (by simp [h])
  | .error x, .error y => if h : x = y then .isTrue (by rw [h]) else .isFalse (by simp [h])
  | .ok _, .error _ => .isFalse (by simp)
  | .error _, .ok _ => .isFalse (by simp)

/-- An Event as `Event.load` rebuilds it: same four fields, `acted` unset. -/
def Event.stripActed (e : Event) : Event :=
  { e with acted := none }

/-- Whether a cell is accepted by the Event constructor as an `agent` value:
a string, or anything falsy. -/
def wfAgentCell (c : PyCell) : Bool :=
  c.isStr || !c.truthy

/-- Events on which `Event.save` succeeds and the standard round trip is
meaningful: a valid timestamp, a constructor-acceptable agent, and an Action
payload exactly on Action-typed events (other types may carry any payload,
including a raw Action object, which passes through `save` unconverted). -/
def wfEventStd (e : Event) : Bool :=
  e.timestamp.valid && wfAgentCell e.agent &&
    (match e.type, e.payload with
     | .Action, .action _ => true
     | .Action, _ => false
     | _, _ => true)

/-- Strings that survive a CSV cell round trip under the pandas model: no
line breaks, and not a token `read_csv` would read as missing, an integer, a
float, or a boolean. -/
def csvSafeString (s : String) : Bool :=
  s.toList.all (fun c => c ≠ '\n' && c ≠ '\r') &&
    !isNaTok s && !isIntString s && !isFloatLike s && !isBoolString s

/-- Events whose compact (CSV) round trip is lossless: a valid timestamp, an
agent that is `None` or a CSV-safe id string, and a payload that is an Action
(for Action events) or `None` or a CSV-safe string (for the other types). -/
def wfEventCompact (e : Event) : Bool :=
  e.timestamp.valid &&
    (match e.agent with
     | .pynone => true
     | .pystr s => csvSafeString s
     | _ => false) &&
    (match e.type, e.payload with
     | .Action, .action _ => true
     | .Action, _ => false
     | _, .pynone => true
     | _, .str s => csvSafeString s
     | _, _ => false)

/-- Whether a cell names one of the two registered participants. -/
def LiveEpisodeState.knownAgent (st : LiveEpisodeState) (c : PyCell) : Bool :=
  match c with
  | .pystr s => s = st.starter.id || s = st.invited.id
  | _ => false

/-- The record `Event.save` returns for an event on which it succeeds:
the payload field of that record. -/
def stdSavedPayload (e : Event) : SavedPayload :=
  match e.type, e.payload with
  | .Action, .action a => .savedAction a.save
  | _, .pynone => .pynone
  | _, .str s => .str s
  | _, .int n => .int n
  | _, .action a => .rawAction a

/-- The record `Event.save` returns for an event on which it succeeds. -/
def stdSavedEvent (e : Event) : SavedEvent :=
  ⟨.pystr e.type.value, .pystr e.timestamp.isoformat, e.agent, stdSavedPayload e⟩

/-- The payload after `_compact_saved_event`: Action payloads are
JSON-encoded, everything else is as `Event.save` wrote it. -/
def compactSavedPayload (e : Event) : SavedPayload :=
  match e.type, e.payload with
  | .Action, .action a => .str (jsonOfSavedAction a.save)
  | _, _ => stdSavedPayload e

/-- The compacted saved event of a well-formed event. -/
def compactSavedEvent (e : Event) : SavedEvent :=
  ⟨.pystr e.type.value, .pystr e.timestamp.isoformat, e.agent,
    compactSavedPayload e⟩

/-- The saved event decoded back from a well-formed event's compact CSV row:
the timestamp is an absolute `datetime` again, everything else is as
`Event.save` wrote it. -/
def uncompactedSavedEvent (e : Event) : SavedEvent :=
  ⟨.pystr e.type.value, .pydt e.timestamp, e.agent, stdSavedPayload e⟩

/-- A concrete valid timestamp used by witnesses and counterexamples. -/
def demoDT : PyDatetime := ⟨2019, 12, 28, 10, 30, 5, 0⟩

/-- A concrete Utterance event. -/
def demoUtterance (a p : String) : Event :=
  ⟨.Utterance, demoDT, .pystr a, .str p, none⟩

/-- A concrete Action event. -/
def demoActionEvent (a : String) (b : Bool) : Event :=
  ⟨.Action, demoDT, .pystr a, .action ⟨b⟩, none⟩

/-- A concrete Leave event. -/
def demoLeave (a : String) : Event :=
  ⟨.Leave, demoDT, .pystr a, .pynone, none⟩

/-- A concrete Episode mixing the three event types. -/
def demoEpisode : Episode :=
  ⟨"alice", "bob", "ep-1", demoDT,
   [demoUtterance "alice" "Hi!", demoUtterance "bob" "Hello there",
    demoActionEvent "alice" false, demoLeave "alice"]⟩

/-- A concrete Episode whose only payload is the digit string `"42"`. -/
def demoNumericEpisode : Episode :=
  ⟨"alice", "bob", "ep-2", demoDT, [demoUtterance "alice" "42"]⟩

/-- A participant that answers every event with one fixed utterance of its
own. -/
def demoEchoAgent (aid p : String) : LiveAgent :=
  ⟨aid, fun _ _ => [demoUtterance aid p]⟩

/-- A live episode between two always-replying participants, with an empty
log. -/
def demoLiveState : LiveEpisodeState :=
  ⟨demoEchoAgent "a" "ping", demoEchoAgent "b" "pong", [], demoDT⟩

/-- An event acted by an id registered with neither participant. -/
def demoEvilEvent : Event := demoUtterance "zzz" "intruder"

/-- A participant that never responds. -/
def demoSilentAgent (aid : String) : LiveAgent := ⟨aid, fun _ _ => []⟩

/-- A live episode between two silent participants, with an empty log. -/
def demoSilentState : LiveEpisodeState :=
  ⟨demoSilentAgent "a", demoSilentAgent "b", [], demoDT⟩

/-- A concrete absolute timestamp for compact-row decoding. -/
def demoAbsDT : PyDatetime := ⟨2019, 12, 28, 10, 0, 0, 0⟩

/-- A compact row with an absolute ISO timestamp. -/
def demoRowAbs : CompactRow :=
  ⟨.pystr "utterance", .pystr "2019-12-28T10:00:00", .pystr "a", .pystr "hi"⟩

/-- A compact row with the relative timestamp `"5s"`. -/
def demoRowRel : CompactRow :=
  ⟨.pystr "utterance", .pystr "5s", .pystr "b", .pystr "yo"⟩

/-- The decode of `[demoRowAbs, demoRowRel]`: the second event lands five
seconds after the first. -/
def demoUncompacted : List SavedEvent :=
  [⟨.pystr "utterance", .pydt demoAbsDT, .pystr "a", .str "hi"⟩,
   ⟨.pystr "utterance", .pydt ⟨2019, 12, 28, 10, 0, 5, 0⟩, .pystr "b", .str "yo"⟩]

theorem cell_pyEq_refl (c : PyCell) : c.pyEq c = true := by
  cases c <;> simp [PyCell.pyEq]

theorem payload_pyEq_refl (p : Payload) : p.pyEq p = true := by
  cases p <;> simp [Payload.pyEq]

/-- C7: constructing an Event fails with a validation error (`ValueError`)
when the timestamp is not a `datetime` value, or when the agent argument is
present (truthy) but not a plain identity string (for example a live
participant object); otherwise construction succeeds and the new Event's
`acted` marker is unset. -/
theorem c7_event_validation (ty : EventType) (ts : PyCell) (ag : PyAgentArg)
    (pl : Payload) :
    ((∀ d, ts ≠ .pydt d) →
      ∃ m, Event.init ty ts ag pl = .error (.valueError m)) ∧
    (∀ d, ts = .pydt d → ag.truthy = true → (∀ s, ag ≠ .cell (.pystr s)) →
      ∃ m, Event.init ty ts ag pl = .error (.valueError m)) ∧
    (∀ d, ts = .pydt d → (ag.truthy = false ∨ ∃ s, ag = .cell (.pystr s)) →
      ∃ c, ag = .cell c ∧ Event.init ty ts ag pl = .ok ⟨ty, d, c, pl, none⟩) := by
  refine ⟨?_, ?_, ?_⟩
  · intro h
    cases ts with
    | pydt d => exact absurd rfl (h d)
    | pynone => exact ⟨_, rfl⟩
    | pyint _ => exact ⟨_, rfl⟩
    | pystr _ => exact ⟨_, rfl⟩
  · intro d hd htr hnostr
    subst hd
    cases ag with
    | handle aid => exact ⟨_, rfl⟩
    | cell c =>
        cases c with
        | pystr s => exact absurd rfl (hnostr s)
        | pynone => simp [PyAgentArg.truthy, PyCell.truthy] at htr
        | pydt _ =>
            refine ⟨"agent-not-str", ?_⟩
            simp [Event.init, PyCell.truthy, PyCell.isStr]
        | pyint n =>
            refine ⟨"agent-not-str", ?_⟩
            simp only [PyAgentArg.truthy, PyCell.truthy] at htr
            simp [Event.init, PyCell.truthy, PyCell.isStr, htr]
  · intro d hd hok
    subst hd
    cases ag with
    | handle aid =>
        rcases hok with h | ⟨s, h⟩
        · simp [PyAgentArg.truthy] at h
        · exact absurd h (by simp)
    | cell c =>
        refine ⟨c, rfl, ?_⟩
        rcases hok with h | ⟨s, h⟩
        · simp only [PyAgentArg.truthy] at h
          simp [Event.init, h]
        · have : c = .pystr s := by injection h
          subst this
          simp [Event.init, PyCell.isStr]

/-- Witness for C7: a well-formed construction succeeds with `acted` unset. -/
theorem c7_event_validation_witness :
    Event.init .Utterance (.pydt demoDT) (.cell (.pystr "alice")) (.str "Hi!") =
      .ok ⟨.Utterance, demoDT, .pystr "alice", .str "Hi!", none⟩ := by
  obtain ⟨c, hc, h⟩ :=
    (c7_event_validation .Utterance (.pydt demoDT) (.cell (.pystr "alice"))
        (.str "Hi!")).2.2 demoDT rfl (Or.inr ⟨"alice", rfl⟩)
  have : PyCell.pystr "alice" = c := by injection hc
  subst this
  exact h

/-- C8: Python equality on Events is the namedtuple equality over the four
fields `(type, timestamp, agent, payload)` and ignores the `acted` marker:
two Events with equal fields compare equal even when one of them has been
marked acted. -/
theorem c8_eq_ignores_acted (e1 e2 : Event) (t : Option PyDatetime)
    (now : PyDatetime) (h1 : e1.type = e2.type) (h2 : e1.timestamp = e2.timestamp)
    (h3 : e1.agent = e2.agent) (h4 : e1.payload = e2.payload) :
    Event.pyEq (e1.mark_acted t now) e2 = true ∧ Event.pyEq e1 e2 = true := by
  constructor <;>
    simp [Event.pyEq, Event.mark_acted, h1, h2, h3, h4, cell_pyEq_refl,
      payload_pyEq_refl]

/-- Witness for C8: a marked and an unmarked copy of the same event compare
equal. -/
theorem c8_eq_ignores_acted_witness :
    Event.pyEq ((demoUtterance "a" "x").mark_acted none demoDT)
        (demoUtterance "a" "x") = true ∧
      Event.pyEq (demoUtterance "a" "x") (demoUtterance "a" "x") = true :=
  c8_eq_ignores_acted (demoUtterance "a" "x") (demoUtterance "a" "x") none demoDT
    rfl rfl rfl rfl

theorem lookahead_not_digitStr (s : String)
    (h : timedeltaLookahead s.toList = true) : isdigitStr s = false := by
  unfold timedeltaLookahead at h
  rw [Bool.and_eq_true] at h
  obtain ⟨h1, h2⟩ := h
  revert h2
  split
  · rename_i c rest heq
    intro h2
    have hcmem : c ∈ s.toList := by
      have hm : c ∈ s.toList.dropWhile Char.isDigit := by
        rw [heq]
        exact List.mem_cons_self _ _
      exact (List.dropWhile_sublist _).mem hm
    have hcd : c.isDigit = false := by
      simp only [Bool.or_eq_true, decide_eq_true_eq] at h2
      rcases h2 with ((rfl | rfl) | rfl) | rfl <;> decide
    unfold isdigitStr
    rw [Bool.eq_false_iff]
    intro hds
    rw [Bool.and_eq_true, List.all_eq_true] at hds
    have := hds.2 c hcmem
    rw [hcd] at this
    exact Bool.noConfusion this
  · intro h2
    exact Bool.noConfusion h2

/-- C9: `parse_timedelta` silently ignores trailing text after the leading
duration pattern instead of failing: `"5s6d"` parses to 5 seconds with no
error while `"xyz"` raises `ValueError`, and in general any string passing
the pattern's leading lookahead parses without error whenever its matched
groups keep the normalized day count within the `timedelta` constructor's
`OverflowError` bound. -/
theorem c9_timedelta_trailing :
    parse_timedelta (.pystr "5s6d") = .ok 5 ∧
    parse_timedelta (.pystr "xyz") = .error (.valueError "timedelta-format") ∧
    (∀ s : String, timedeltaLookahead s.toList = true →
      Int.fdiv (timedeltaGroups s.toList : Int) 86400 ≤ (TIMEDELTA_DAYS_MAX : Int) →
      ∃ d : Int, parse_timedelta (.pystr s) = .ok d) := by
  refine ⟨by decide, by decide, ?_⟩
  intro s h hbound
  have hd := lookahead_not_digitStr s h
  refine ⟨(timedeltaGroups s.toList : Int), ?_⟩
  unfold parse_timedelta
  dsimp only
  rw [if_neg (by simp [hd]), if_pos h]
  unfold timedeltaSeconds
  rw [if_neg]
  push_neg
  have hv0 : (0 : Int) ≤ Int.fdiv (timedeltaGroups s.toList : Int) 86400 :=
    Int.fdiv_nonneg (by positivity) (by norm_num)
  unfold TIMEDELTA_DAYS_MAX at hbound ⊢
  omega

/-- Witness for C9: the universally quantified no-error clause at the
concrete token `"7m"`. -/
theorem c9_timedelta_trailing_witness :
    ∃ d : Int, parse_timedelta (.pystr "7m") = .ok d :=
  c9_timedelta_trailing.2.2 "7m" (by decide) (by decide)

theorem addEventGo_raise (fuel : Nat) (st : LiveEpisodeState) (e : Event)
    (rest : List Event) (err : PyError)
    (h : st.agent_by_id e.agent = .error err) :
    addEventGo fuel st (e :: rest) = .raised err st := by
  have hstep : cascadeStep st e = .inl err := by simp [cascadeStep, h]
  match fuel with
  | 0 => simp [addEventGo, cascadeBreak, hstep]
  | 1 => simp [addEventGo, cascadeBreak, hstep]
  | f + 2 => simp [addEventGo, hstep]

theorem agent_by_id_unknown (st : LiveEpisodeState) (c : PyCell)
    (h : st.knownAgent c = false) :
    st.agent_by_id c = .error (.valueError "agent-not-in-episode") := by
  cases c with
  | pystr s =>
      simp only [LiveEpisodeState.knownAgent, Bool.or_eq_false_iff,
        decide_eq_false_iff_not] at h
      simp [LiveEpisodeState.agent_by_id, h.1, h.2]
  | pynone => rfl
  | pyint _ => rfl
  | pydt _ => rfl

/-- C4 (amended): emitting an event whose agent id names neither registered
participant raises the unknown-participant `ValueError` on both dispatchers;
the synchronous dispatcher leaves the event log unchanged, while the
asynchronous one has already appended the event (marked acted) when it
raises. -/
theorem c4_unknown_participant_amended (st : LiveEpisodeState) (e : Event)
    (h : st.knownAgent e.agent = false) :
    LiveEpisode.add_event st e =
      .raised (.valueError "agent-not-in-episode") st ∧
    AsyncLiveEpisode.add_event st e =
      .raised (.valueError "agent-not-in-episode")
        { st with events := st.events ++ [e.mark_acted none st.now] } := by
  have h1 : ({ st with events := st.events ++ [e.mark_acted none st.now]
      } : LiveEpisodeState).knownAgent e.agent = false := by
    cases hc : e.agent <;>
      simp_all [LiveEpisodeState.knownAgent]
  constructor
  · exact addEventGo_raise _ st e [] _ (agent_by_id_unknown st e.agent h)
  · simp [AsyncLiveEpisode.add_event, agent_by_id_unknown _ e.agent h1]

/-- Counterexample for C4: on the asynchronous dispatcher a concrete unknown
agent id raises the unknown-participant error but the event log is not left
unchanged (the event was appended before the raise). -/
theorem c4_unknown_participant_counterexample :
    demoLiveState.knownAgent demoEvilEvent.agent = false ∧
    (AsyncLiveEpisode.add_event demoLiveState demoEvilEvent).raisedError =
      some (.valueError "agent-not-in-episode") ∧
    (AsyncLiveEpisode.add_event demoLiveState demoEvilEvent).resultEvents ≠
      demoLiveState.events := by
  decide

/-- Witness for C4 (amended) at a concrete unknown agent id. -/
theorem c4_unknown_participant_witness :
    LiveEpisode.add_event demoLiveState demoEvilEvent =
      .raised (.valueError "agent-not-in-episode") demoLiveState ∧
    AsyncLiveEpisode.add_event demoLiveState demoEvilEvent =
      .raised (.valueError "agent-not-in-episode")
        { demoLiveState with
          events := demoLiveState.events ++
            [demoEvilEvent.mark_acted none demoLiveState.now] } :=
  c4_unknown_participant_amended demoLiveState demoEvilEvent (by decide)

theorem uncompact_invited (saved : SavedEpisode) (x : List String) :
    _uncompact_saved_episode { saved with invited_agents := x } =
      (_uncompact_saved_episode saved).map
        fun se => { se with invited_agents := x } := by
  unfold _uncompact_saved_episode
  cases hev : saved.events with
  | std evs => rfl
  | cpt ls =>
      simp only [Except.map, bind, Except.bind, pure, Except.pure]
      cases hr : readCSV ls with
      | error e => rfl
      | ok rows =>
          dsimp only
          cases hc : convert_datetime saved.timestamp with
          | error e => rfl
          | ok seed =>
              dsimp only
              cases hu : uncompactEvents rows seed with
              | error e => rfl
              | ok evs => rfl

/-- C10: `Episode.load` reads only the first element of the saved
`invited_agents` list (any further elements are silently discarded), and
loading a saved episode whose `invited_agents` list is empty fails. -/
theorem c10_invited_agents :
    (∀ (saved : SavedEpisode) (a : String) (rest : List String),
      Episode.load { saved with invited_agents := a :: rest } =
        Episode.load { saved with invited_agents := [a] }) ∧
    (∀ saved : SavedEpisode,
      ∃ err, Episode.load { saved with invited_agents := [] } = .error err) := by
  constructor
  · intro saved a rest
    unfold Episode.load
    dsimp only
    by_cases hf : saved.format = "compact"
    · rw [if_pos hf, if_pos hf, uncompact_invited saved (a :: rest),
        uncompact_invited saved [a]]
      simp only [bind, Except.bind, Except.map]
      cases hu : _uncompact_saved_episode saved with
      | error e => rfl
      | ok se => rfl
    · rw [if_neg hf, if_neg hf]
      rfl
  · intro saved
    unfold Episode.load
    dsimp only
    by_cases hf : saved.format = "compact"
    · rw [if_pos hf, uncompact_invited saved []]
      simp only [bind, Except.bind, Except.map]
      cases hu : _uncompact_saved_episode saved with
      | error e => exact ⟨e, rfl⟩
      | ok se => exact ⟨.indexError "invited-agents", rfl⟩
    · exact ⟨.indexError "invited-agents", by rw [if_neg hf]; rfl⟩

theorem except_bind_ok {α β : Type} {x : Except PyError α}
    {f : α → Except PyError β} {v : β} (h : x >>= f = .ok v) :
    ∃ w, x = .ok w ∧ f w = .ok v := by
  cases x with
  | error e => exact Except.noConfusion h
  | ok w => exact ⟨w, rfl, h⟩

theorem uncompact_event_timestamp (row : CompactRow) (last t : PyDatetime)
    (ht : _uncompact_timestamp row last = .ok t) (ev : SavedEvent)
    (hev : _uncompact_saved_event row last = .ok ev) :
    ev.timestamp = .pydt t := by
  unfold _uncompact_saved_event at hev
  obtain ⟨t', ht', hev⟩ := except_bind_ok hev
  have htt : t' = t := by
    rw [ht] at ht'
    injection ht' with h'
    exact h'.symm
  subst htt
  dsimp only at hev
  split at hev <;> split at hev <;>
    obtain ⟨w, hw, h2⟩ := except_bind_ok hev <;>
    first
      | exact Except.noConfusion hw
      | (injection h2 with h'; subst h'; rfl)

theorem uncompact_event_abs (row : CompactRow) (last T : PyDatetime)
    (h : convert_datetime row.timestamp = .ok T) (ev : SavedEvent)
    (hev : _uncompact_saved_event row last = .ok ev) :
    ev.timestamp = .pydt T := by
  refine uncompact_event_timestamp row last T ?_ ev hev
  unfold _uncompact_timestamp
  rw [h]

theorem uncompact_event_rel5s (row : CompactRow) (last : PyDatetime)
    (h : row.timestamp = .pystr "5s") (ev : SavedEvent)
    (hev : _uncompact_saved_event row last = .ok ev) :
    ev.timestamp = .pydt (last.addSeconds 5) := by
  refine uncompact_event_timestamp row last _ ?_ ev hev
  have hconv : convert_datetime row.timestamp =
      .error (.valueError "invalid-isoformat") := by rw [h]; decide
  have hpt : parse_timedelta row.timestamp = .ok 5 := by rw [h]; decide
  unfold _uncompact_timestamp
  rw [hconv]
  dsimp only
  rw [hpt]
  rfl

theorem uncompactEvents_cons (row : CompactRow) (rest : List CompactRow)
    (seed : PyDatetime) (evs : List SavedEvent)
    (h : uncompactEvents (row :: rest) seed = .ok evs) :
    ∃ ev evs', evs = ev :: evs' ∧ _uncompact_saved_event row seed = .ok ev ∧
      uncompactEvents rest
        (match ev.timestamp with | .pydt d => d | _ => seed) = .ok evs' := by
  unfold uncompactEvents at h
  split at h
  · exact absurd h (by simp)
  · rename_i ev hev
    split at h
    · exact absurd h (by simp)
    · rename_i evs' hevs'
      injection h with h'
      exact ⟨ev, evs', h'.symm, hev, hevs'⟩

/-- C5: decoding a compact row tries absolute ISO parsing first and only on
`ValueError` falls back to a relative offset added to the previous decoded
timestamp; a row carrying `"5s"` immediately after a row decoded to `T`
decodes to `T` plus five seconds, and a first row carrying `"5s"` decodes to
the episode's creation timestamp plus five seconds. -/
theorem c5_relative_timestamp_decoding :
    (∀ (rows1 : List CompactRow) (r1 r2 : CompactRow) (seed T : PyDatetime)
        (evs : List SavedEvent),
      convert_datetime r1.timestamp = .ok T →
      r2.timestamp = .pystr "5s" →
      uncompactEvents (rows1 ++ [r1, r2]) seed = .ok evs →
      ∃ pre e1 e2, evs = pre ++ [e1, e2] ∧ e1.timestamp = .pydt T ∧
        e2.timestamp = .pydt (T.addSeconds 5)) ∧
    (∀ (ce : SavedEpisode) (lines : List String) (r : CompactRow)
        (rows : List CompactRow) (T0 : PyDatetime) (se : SavedEpisode)
        (e1 : SavedEvent) (evs : List SavedEvent),
      ce.events = .cpt lines →
      readCSV lines = .ok (r :: rows) →
      convert_datetime ce.timestamp = .ok T0 →
      r.timestamp = .pystr "5s" →
      _uncompact_saved_episode ce = .ok se →
      se.events = .std (e1 :: evs) →
      e1.timestamp = .pydt (T0.addSeconds 5)) := by
  constructor
  · intro rows1
    induction rows1 with
    | nil =>
        intro r1 r2 seed T evs h1 h2 hrun
        obtain ⟨ev1, evs1, rfl, hev1, hrest⟩ := uncompactEvents_cons _ _ _ _ hrun
        have ht1 : ev1.timestamp = .pydt T := uncompact_event_abs _ _ _ h1 _ hev1
        rw [ht1] at hrest
        obtain ⟨ev2, evs2, rfl, hev2, hrest2⟩ := uncompactEvents_cons _ _ _ _ hrest
        have ht2 : ev2.timestamp = .pydt (T.addSeconds 5) :=
          uncompact_event_rel5s _ _ h2 _ hev2
        have : evs2 = [] := by
          unfold uncompactEvents at hrest2
          injection hrest2 with h'
          exact h'.symm
        subst this
        exact ⟨[], ev1, ev2, rfl, ht1, ht2⟩
    | cons row rows ih =>
        intro r1 r2 seed T evs h1 h2 hrun
        rw [List.cons_append] at hrun
        obtain ⟨ev, evs', rfl, hev, hrest⟩ := uncompactEvents_cons _ _ _ _ hrun
        obtain ⟨pre, e1, e2, rfl, ht1, ht2⟩ := ih r1 r2 _ T evs' h1 h2 hrest
        exact ⟨ev :: pre, e1, e2, rfl, ht1, ht2⟩
  · intro ce lines r rows T0 se e1 evs hlines hread hc h5 hun hse
    unfold _uncompact_saved_episode at hun
    rw [hlines] at hun
    simp only [bind, Except.bind, pure, Except.pure] at hun
    rw [hread] at hun
    dsimp only at hun
    rw [hc] at hun
    dsimp only at hun
    split at hun
    · exact Except.noConfusion hun
    · rename_i uevs huevs
      injection hun with h'
      rw [← h'] at hse
      simp only [SavedEvents.std.injEq] at hse
      obtain ⟨ev, evs', heq, hev, _⟩ := uncompactEvents_cons _ _ _ _ huevs
      rw [heq] at hse
      have he1 : ev = e1 := by injection hse with h1 h2
      subst he1
      exact uncompact_event_rel5s _ _ h5 _ hev

/-- Witness for C5: a concrete two-row decode where the second row's `"5s"`
lands five seconds after the first row's absolute timestamp. -/
theorem c5_relative_timestamp_decoding_witness :
    ∃ pre e1 e2,
      demoUncompacted = pre ++ [e1, e2] ∧ e1.timestamp = .pydt demoAbsDT ∧
        e2.timestamp = .pydt (demoAbsDT.addSeconds 5) :=
  c5_relative_timestamp_decoding.1 [] demoRowAbs demoRowRel demoDT demoAbsDT
    demoUncompacted (by decide) rfl (by decide)

theorem mark_acted_ne_none (e : Event) (t : Option PyDatetime) (now : PyDatetime) :
    (e.mark_acted t now).acted ≠ none := by
  cases t <;> simp [Event.mark_acted]

theorem cascadeStep_inr (st : LiveEpisodeState) (e : Event)
    (st1 : LiveEpisodeState) (resp : List Event)
    (h : cascadeStep st e = .inr (st1, resp)) :
    st1.events = st.events ++ [e.mark_acted none st.now] ∧ st1.now = st.now := by
  unfold cascadeStep at h
  split at h
  · exact Sum.noConfusion h
  · injection h with h'
    injection h' with h1 h2
    rw [← h1]
    exact ⟨rfl, rfl⟩

theorem addEventGo_acted : ∀ (fuel : Nat) (st : LiveEpisodeState)
    (queue : List Event) (st' : LiveEpisodeState),
    (∀ ev ∈ st.events, ev.acted ≠ none) →
    addEventGo fuel st queue = .ok st' →
    ∀ ev ∈ st'.events, ev.acted ≠ none := by
  intro fuel
  induction fuel using Nat.strong_induction_on with
  | _ fuel ih =>
    intro st queue st' hpre hok
    have breakCase : ∀ (e : Event) (rest : List Event),
        cascadeBreak st e rest = .ok st' → ∀ ev ∈ st'.events, ev.acted ≠ none := by
      intro e rest hbr
      unfold cascadeBreak at hbr
      split at hbr
      · exact DispatchResult.noConfusion hbr
      · rename_i st1 resp hs
        obtain ⟨hev1, _⟩ := cascadeStep_inr st e st1 resp hs
        injection hbr with h'
        rw [← h']
        intro ev hev
        rcases List.mem_append.mp hev with hev2 | hev2
        · rw [hev1] at hev2
          rcases List.mem_append.mp hev2 with hev3 | hev3
          · exact hpre ev hev3
          · obtain rfl := List.mem_singleton.mp hev3
            exact mark_acted_ne_none e none st.now
        · obtain ⟨x, hx, rfl⟩ := List.mem_map.mp hev2
          exact mark_acted_ne_none x none st1.now
    cases queue with
    | nil =>
        cases fuel with
        | zero =>
            injection hok with h'
            rw [← h']
            exact hpre
        | succ f =>
            cases f with
            | zero =>
                injection hok with h'
                rw [← h']
                exact hpre
            | succ f' =>
                injection hok with h'
                rw [← h']
                exact hpre
    | cons e rest =>
        cases fuel with
        | zero => exact breakCase e rest hok
        | succ f =>
            cases f with
            | zero => exact breakCase e rest hok
            | succ f' =>
                rw [addEventGo] at hok
                split at hok
                · exact DispatchResult.noConfusion hok
                · rename_i st1 resp hs
                  obtain ⟨hev1, _⟩ := cascadeStep_inr st e st1 resp hs
                  refine ih (f' + 1) (by omega) st1 (rest ++ resp) st' ?_ hok
                  intro ev hev
                  rw [hev1] at hev
                  rcases List.mem_append.mp hev with hev | hev
                  · exact hpre ev hev
                  · rcases List.mem_singleton.mp hev with rfl
                    exact mark_acted_ne_none e none st.now

/-- C6: after a synchronous emit (add_event) returns normally, every event in
the log has a non-null `acted` timestamp, provided every event already in the
log before the call was acted; response events routed through the cascade and
still-pending events appended after the cap are all marked. -/
theorem c6_acted_marking (st : LiveEpisodeState) (e : Event)
    (st' : LiveEpisodeState) (hpre : ∀ ev ∈ st.events, ev.acted ≠ none)
    (hok : LiveEpisode.add_event st e = .ok st') :
    ∀ ev ∈ st'.events, ev.acted ≠ none :=
  addEventGo_acted (MAX_EVENT_RESPONSES + 1) st [e] st' hpre hok

/-- Witness for C6: a concrete emit between silent participants yields a log
whose single event is marked acted. -/
theorem c6_acted_marking_witness :
    ((demoUtterance "a" "hi").mark_acted none demoDT).acted ≠ none :=
  c6_acted_marking demoSilentState (demoUtterance "a" "hi")
    { demoSilentState with
      events := [(demoUtterance "a" "hi").mark_acted none demoDT] }
    (fun ev hev => absurd hev (List.not_mem_nil ev)) rfl
    ((demoUtterance "a" "hi").mark_acted none demoDT) (by simp)

theorem cascadeStep_reply (A B : LiveAgent) (now : PyDatetime) (evs : List Event)
    (hAB : A.id ≠ B.id)
    (hA : ∀ ev evlist, ev.type = .Utterance →
      ∃ r, A.callback ev evlist = [r] ∧ r.type = .Utterance ∧ r.agent = .pystr A.id)
    (hB : ∀ ev evlist, ev.type = .Utterance →
      ∃ r, B.callback ev evlist = [r] ∧ r.type = .Utterance ∧ r.agent = .pystr B.id)
    (e : Event) (he : e.type = .Utterance)
    (hag : e.agent = .pystr A.id ∨ e.agent = .pystr B.id) :
    ∃ r, cascadeStep ⟨A, B, evs, now⟩ e =
        .inr (⟨A, B, evs ++ [e.mark_acted none now], now⟩, [r]) ∧
      r.type = .Utterance ∧ (r.agent = .pystr A.id ∨ r.agent = .pystr B.id) := by
  have hmark : (e.mark_acted none now).type = .Utterance := by
    simpa [Event.mark_acted] using he
  rcases hag with hag | hag
  · obtain ⟨r, hcb, hr1, hr2⟩ :=
      hB (e.mark_acted none now) (evs ++ [e.mark_acted none now]) hmark
    refine ⟨r, ?_, hr1, Or.inr hr2⟩
    unfold cascadeStep LiveEpisodeState.agent_by_id
    rw [hag]
    simp [hAB, LiveEpisodeState.other_agents, hcb]
  · obtain ⟨r, hcb, hr1, hr2⟩ :=
      hA (e.mark_acted none now) (evs ++ [e.mark_acted none now]) hmark
    refine ⟨r, ?_, hr1, Or.inl hr2⟩
    unfold cascadeStep LiveEpisodeState.agent_by_id
    rw [hag]
    simp [hAB, LiveEpisodeState.other_agents, hcb]

theorem cascade_always_reply (A B : LiveAgent) (now : PyDatetime)
    (hAB : A.id ≠ B.id)
    (hA : ∀ ev evlist, ev.type = .Utterance →
      ∃ r, A.callback ev evlist = [r] ∧ r.type = .Utterance ∧ r.agent = .pystr A.id)
    (hB : ∀ ev evlist, ev.type = .Utterance →
      ∃ r, B.callback ev evlist = [r] ∧ r.type = .Utterance ∧ r.agent = .pystr B.id) :
    ∀ (fuel : Nat) (evs : List Event) (e : Event),
      e.type = .Utterance →
      (e.agent = .pystr A.id ∨ e.agent = .pystr B.id) →
      ∃ evs', addEventGo (fuel + 1) ⟨A, B, evs, now⟩ [e] = .ok ⟨A, B, evs', now⟩ ∧
        evs'.length = evs.length + fuel + 2 := by
  intro fuel
  induction fuel with
  | zero =>
      intro evs e he hag
      obtain ⟨r, hstep, hr1, hr2⟩ := cascadeStep_reply A B now evs hAB hA hB e he hag
      refine ⟨evs ++ [e.mark_acted none now] ++ [r.mark_acted none now], ?_, ?_⟩
      · show cascadeBreak ⟨A, B, evs, now⟩ e [] = _
        unfold cascadeBreak
        rw [hstep]
        rfl
      · simp only [List.length_append, List.length_cons, List.length_nil]
        try omega
  | succ fuel ih =>
      intro evs e he hag
      obtain ⟨r, hstep, hr1, hr2⟩ := cascadeStep_reply A B now evs hAB hA hB e he hag
      obtain ⟨evs', hok, hlen⟩ := ih (evs ++ [e.mark_acted none now]) r hr1 hr2
      refine ⟨evs', ?_, ?_⟩
      · show addEventGo (fuel + 2) ⟨A, B, evs, now⟩ [e] = _
        rw [addEventGo, hstep]
        exact hok
      · rw [hlen]
        simp only [List.length_append, List.length_cons, List.length_nil]
        omega

/-- C1 (amended): for a synchronous dispatcher whose two participants (with
distinct ids) always reply to any utterance with exactly one new utterance of
their own, a single emit (add_event) of one seed utterance appends exactly
`MAX_EVENT_RESPONSES + 2` events to the log's events list and returns without
raising: the loop runs `MAX_EVENT_RESPONSES + 1` iterations before the
post-increment cap check fires, and the one still-pending response is then
appended without notification. -/
theorem c1_bounded_cascade_amended (A B : LiveAgent) (now : PyDatetime)
    (evs : List Event) (e : Event) (hAB : A.id ≠ B.id)
    (hA : ∀ ev evlist, ev.type = .Utterance →
      ∃ r, A.callback ev evlist = [r] ∧ r.type = .Utterance ∧ r.agent = .pystr A.id)
    (hB : ∀ ev evlist, ev.type = .Utterance →
      ∃ r, B.callback ev evlist = [r] ∧ r.type = .Utterance ∧ r.agent = .pystr B.id)
    (he : e.type = .Utterance)
    (hag : e.agent = .pystr A.id ∨ e.agent = .pystr B.id) :
    ∃ evs', LiveEpisode.add_event ⟨A, B, evs, now⟩ e = .ok ⟨A, B, evs', now⟩ ∧
      evs'.length = evs.length + MAX_EVENT_RESPONSES + 2 :=
  cascade_always_reply A B now hAB hA hB MAX_EVENT_RESPONSES evs e he hag

/-- Counterexample for C1: with two concrete always-replying participants and
one seed utterance on an empty log, the number of appended events is not
`MAX_EVENT_RESPONSES` (it is `MAX_EVENT_RESPONSES + 2`). -/
theorem c1_bounded_cascade_counterexample :
    (LiveEpisode.add_event demoLiveState (demoUtterance "a" "hi")).resultEvents.length ≠
      MAX_EVENT_RESPONSES := by
  obtain ⟨evs', hok, hlen⟩ := cascade_always_reply (demoEchoAgent "a" "ping")
      (demoEchoAgent "b" "pong") demoDT (by decide)
      (fun ev evlist h => ⟨demoUtterance "a" "ping", rfl, rfl, rfl⟩)
      (fun ev evlist h => ⟨demoUtterance "b" "pong", rfl, rfl, rfl⟩)
      MAX_EVENT_RESPONSES [] (demoUtterance "a" "hi") rfl (Or.inl rfl)
  have hok' : LiveEpisode.add_event demoLiveState (demoUtterance "a" "hi") =
      .ok ⟨demoEchoAgent "a" "ping", demoEchoAgent "b" "pong", evs', demoDT⟩ := hok
  rw [hok']
  simp only [DispatchResult.resultEvents]
  rw [hlen]
  simp [MAX_EVENT_RESPONSES]

/-- Witness for C1 (amended) at the concrete two always-replying
participants. -/
theorem c1_bounded_cascade_witness :
    ∃ evs', LiveEpisode.add_event demoLiveState (demoUtterance "a" "hi") =
        .ok ⟨demoEchoAgent "a" "ping", demoEchoAgent "b" "pong", evs', demoDT⟩ ∧
      evs'.length = ([] : List Event).length + MAX_EVENT_RESPONSES + 2 :=
  c1_bounded_cascade_amended (demoEchoAgent "a" "ping") (demoEchoAgent "b" "pong")
    demoDT [] (demoUtterance "a" "hi") (by decide)
    (fun ev evlist h => ⟨demoUtterance "a" "ping", rfl, rfl, rfl⟩)
    (fun ev evlist h => ⟨demoUtterance "b" "pong", rfl, rfl, rfl⟩)
    rfl (Or.inl rfl)

theorem digit_facts : ∀ n < 10, (digCh n).isDigit = true ∧ digVal (digCh n) = n := by
  decide

theorem parse2_pad2 (n : Nat) (h : n < 100) (r : List Char) :
    parse2 (pad2 n ++ r) = .ok (n, r) := by
  obtain ⟨d1, v1⟩ := digit_facts (n / 10 % 10) (Nat.mod_lt _ (by norm_num))
  obtain ⟨d2, v2⟩ := digit_facts (n % 10) (Nat.mod_lt _ (by norm_num))
  simp only [pad2, List.cons_append, List.nil_append, parse2, d1, d2, Bool.and_self,
    if_true, v1, v2]
  rw [show 10 * (n / 10 % 10) + n % 10 = n by omega]

theorem parse4_pad4 (n : Nat) (h : n < 10000) (r : List Char) :
    parse4 (pad4 n ++ r) = .ok (n, r) := by
  obtain ⟨d1, v1⟩ := digit_facts (n / 1000 % 10) (Nat.mod_lt _ (by norm_num))
  obtain ⟨d2, v2⟩ := digit_facts (n / 100 % 10) (Nat.mod_lt _ (by norm_num))
  obtain ⟨d3, v3⟩ := digit_facts (n / 10 % 10) (Nat.mod_lt _ (by norm_num))
  obtain ⟨d4, v4⟩ := digit_facts (n % 10) (Nat.mod_lt _ (by norm_num))
  simp only [pad4, List.cons_append, List.nil_append, parse4, d1, d2, d3, d4,
    Bool.and_self, if_true, v1, v2, v3, v4]
  rw [show 1000 * (n / 1000 % 10) + 100 * (n / 100 % 10) + 10 * (n / 10 % 10) +
    n % 10 = n by omega]

theorem parseFrac_pad6 (n : Nat) (h : n < 1000000) :
    parseFrac (pad6 n) = .ok n := by
  obtain ⟨d1, v1⟩ := digit_facts (n / 100000 % 10) (Nat.mod_lt _ (by norm_num))
  obtain ⟨d2, v2⟩ := digit_facts (n / 10000 % 10) (Nat.mod_lt _ (by norm_num))
  obtain ⟨d3, v3⟩ := digit_facts (n / 1000 % 10) (Nat.mod_lt _ (by norm_num))
  obtain ⟨d4, v4⟩ := digit_facts (n / 100 % 10) (Nat.mod_lt _ (by norm_num))
  obtain ⟨d5, v5⟩ := digit_facts (n / 10 % 10) (Nat.mod_lt _ (by norm_num))
  obtain ⟨d6, v6⟩ := digit_facts (n % 10) (Nat.mod_lt _ (by norm_num))
  simp only [pad6, parseFrac, d1, d2, d3, d4, d5, d6, Bool.and_self, if_true,
    v1, v2, v3, v4, v5, v6]
  rw [show 100000 * (n / 100000 % 10) + 10000 * (n / 10000 % 10) +
    1000 * (n / 1000 % 10) + 100 * (n / 100 % 10) + 10 * (n / 10 % 10) +
    n % 10 = n by omega]

theorem expectCh_cons (c : Char) (r : List Char) : expectCh c (c :: r) = .ok r := by
  simp [expectCh]

theorem parseIsoTime_iso (h mi s us : Nat) (hh : h < 100) (hmi : mi < 100)
    (hs : s < 100) (hus : us < 1000000) :
    parseIsoTime (pad2 h ++ ':' :: (pad2 mi ++ ':' :: (pad2 s ++
        (if us = 0 then [] else '.' :: pad6 us)))) = .ok (h, mi, s, us) := by
  unfold parseIsoTime
  rw [parse2_pad2 h hh]
  simp only [bind, Except.bind]
  rw [expectCh_cons]
  dsimp only
  rw [parse2_pad2 mi hmi]
  dsimp only
  simp only [reduceIte]
  by_cases h0 : us = 0
  · subst h0
    rw [parse2_pad2 s hs]
    rfl
  · rw [if_neg h0, parse2_pad2 s hs]
    dsimp only
    simp only [reduceIte]
    rw [parseFrac_pad6 us hus]

theorem daysInMonth_le (y m : Nat) : daysInMonth y m ≤ 31 := by
  unfold daysInMonth
  split
  · split <;> omega
  · split <;> omega

theorem fromisoformat_isoformat (d : PyDatetime) (h : d.valid = true) :
    fromisoformat d.isoformat = .ok d := by
  have hb := h
  unfold PyDatetime.valid at hb
  simp only [Bool.and_eq_true, decide_eq_true_eq] at hb
  obtain ⟨⟨⟨⟨⟨⟨⟨⟨⟨hy1, hy2⟩, hm1⟩, hm2⟩, hd1⟩, hd2⟩, hh⟩, hmi⟩, hs⟩, hus⟩ := hb
  unfold fromisoformat PyDatetime.isoformat PyDatetime.isoChars
  rw [List.toList_asString, parse4_pad4 d.year (by omega)]
  simp only [bind, Except.bind]
  rw [expectCh_cons]
  dsimp only
  rw [parse2_pad2 d.month (by omega)]
  dsimp only
  rw [expectCh_cons]
  dsimp only
  rw [parse2_pad2 d.day (by have := daysInMonth_le d.year d.month; omega)]
  dsimp only
  rw [parseIsoTime_iso d.hour d.minute d.second d.microsecond (by omega) (by omega)
    (by omega) (by omega)]
  dsimp only
  rw [h]
  rfl

theorem wfAgentCell_check (c : PyCell) (h : wfAgentCell c = true) :
    (c.truthy && !c.isStr) = false := by
  cases c <;> simp_all [wfAgentCell, PyCell.truthy, PyCell.isStr]

theorem event_init_ok (ty : EventType) (t : PyDatetime) (c : PyCell)
    (pl : Payload) (h : wfAgentCell c = true) :
    Event.init ty (.pydt t) (.cell c) pl = .ok ⟨ty, t, c, pl, none⟩ := by
  simp [Event.init, wfAgentCell_check c h]

theorem event_roundtrip_std (e : Event) (h : wfEventStd e = true) :
    ∃ se, Event.save e = .ok se ∧ Event.load se = .ok e.stripActed := by
  have hb := h
  unfold wfEventStd at hb
  simp only [Bool.and_eq_true] at hb
  obtain ⟨⟨htv, hag⟩, hpl⟩ := hb
  cases e with
  | mk ty ts ag pl acted =>
    cases ty with
    | Action =>
        cases pl with
        | action a =>
            refine ⟨_, rfl, ?_⟩
            simp only [Event.load, EventType.ofTag, EventType.value,
              RecordedAction.save, convert_datetime, bind,
              Except.bind, pure, Except.pure, reduceIte, Except.map, Action.load,
              recordedActionClass, Option.getD, fromisoformat_isoformat ts htv,
              event_init_ok _ ts ag _ hag, Event.stripActed]
            try rfl
        | pynone => exact absurd hpl (by simp)
        | str s => exact absurd hpl (by simp)
        | int n => exact absurd hpl (by simp)
    | Utterance =>
        cases pl <;>
          · refine ⟨_, rfl, ?_⟩
            simp only [Event.load, EventType.ofTag, EventType.value,
              convert_datetime, bind,
              Except.bind, pure, Except.pure, reduceIte, Except.map,
              fromisoformat_isoformat ts htv, event_init_ok _ ts ag _ hag,
              Event.stripActed]
            try rfl
    | Leave =>
        cases pl <;>
          · refine ⟨_, rfl, ?_⟩
            simp only [Event.load, EventType.ofTag, EventType.value,
              convert_datetime, bind,
              Except.bind, pure, Except.pure, reduceIte, Except.map,
              fromisoformat_isoformat ts htv, event_init_ok _ ts ag _ hag,
              Event.stripActed]
            try rfl

theorem mapM_event_roundtrip (evs : List Event)
    (h : ∀ e ∈ evs, wfEventStd e = true) :
    ∃ ses, evs.mapM Event.save = .ok ses ∧
      ses.mapM Event.load = .ok (evs.map Event.stripActed) := by
  induction evs with
  | nil => exact ⟨[], by rfl, by rfl⟩
  | cons e rest ih =>
      obtain ⟨se, hs, hl⟩ := event_roundtrip_std e (h e (by simp))
      obtain ⟨ses, hss, hls⟩ := ih fun x hx => h x (by simp [hx])
      refine ⟨se :: ses, ?_, ?_⟩
      · rw [List.mapM_cons, hs, hss]
        rfl
      · rw [List.mapM_cons, hl, hls]
        simp only [List.map_cons]
        rfl

theorem event_pyEq_strip (e : Event) : (Event.stripActed e).pyEq e = true := by
  simp [Event.stripActed, Event.pyEq, cell_pyEq_refl, payload_pyEq_refl]

theorem zip_strip_all (evs : List Event) :
    ((evs.map Event.stripActed).zip evs).all (fun p => p.1.pyEq p.2) = true := by
  induction evs with
  | nil => rfl
  | cons e r ih => simp [event_pyEq_strip, ih]

/-- C2: for every Episode whose events are well formed for the standard
format (valid timestamps, constructor-acceptable agents, Action payloads
exactly on Action events), `Episode.load (Episode.save L 'standard')`
succeeds and is equal to L under the structural equality `Episode.__eq__`
defined over `(starter_id, invited_id, id, timestamp, events)`. -/
theorem c2_standard_roundtrip (ep : Episode)
    (hevs : ∀ e ∈ ep.events, wfEventStd e = true) :
    ∃ l, Episode.save ep "standard" >>= Episode.load = .ok l ∧
      l.pyEq ep = true := by
  obtain ⟨ses, hsave, hload⟩ := mapM_event_roundtrip ep.events hevs
  refine ⟨⟨ep.starter_id, ep.invited_id, ep.id, ep.timestamp,
    ep.events.map Event.stripActed⟩, ?_, ?_⟩
  · unfold Episode.save
    simp only [bind, Except.bind, pure, Except.pure]
    rw [hsave]
    dsimp only
    unfold Episode.load
    simp only [bind, Except.bind, pure, Except.pure]
    rw [if_neg (by decide : ¬("standard" : String) = "compact")]
    try dsimp only
    try rw [if_neg (by decide : ¬("standard" : String) = "compact")]
    try dsimp only
    rw [hload]
    rfl
  · simp [Episode.pyEq, zip_strip_all, List.length_map]

/-- Witness for C2 at a concrete episode mixing Utterance, Action and Leave
events. -/
theorem c2_standard_roundtrip_witness :
    ∃ l, Episode.save demoEpisode "standard" >>= Episode.load = .ok l ∧
      l.pyEq demoEpisode = true :=
  c2_standard_roundtrip demoEpisode (by decide)

theorem tokGo_plain (s : List Char) (hs : ∀ c ∈ s, c ≠ '|' ∧ c ≠ '"') :
    ∀ (cur l : List Char) (fields : List String),
      tokGo .plain cur (s ++ l) fields = tokGo .plain (s.reverse ++ cur) l fields := by
  induction s with
  | nil => intro cur l fields; rfl
  | cons c r ih =>
      intro cur l fields
      have hc := hs c (by simp)
      rw [List.cons_append, tokGo, if_neg hc.1]
      rw [ih (fun x hx => hs x (by simp [hx])) (c :: cur) l fields]
      simp [List.append_assoc]

theorem tokGo_quoted (s : List Char) :
    ∀ (cur l : List Char) (fields : List String),
      tokGo .quoted cur (escQuotes s ++ '"' :: l) fields =
        tokGo .afterQuote (s.reverse ++ cur) l fields := by
  induction s with
  | nil =>
      intro cur l fields
      rw [show escQuotes [] = [] from rfl, List.nil_append, tokGo, if_pos rfl]
      simp
  | cons c r ih =>
      intro cur l fields
      by_cases hc : c = '"'
      · subst hc
        rw [show escQuotes ('"' :: r) = '"' :: '"' :: escQuotes r from rfl]
        rw [List.cons_append, tokGo, if_pos rfl]
        rw [List.cons_append, tokGo, if_pos rfl]
        rw [ih ('"' :: cur) l fields]
        simp [List.append_assoc]
      · rw [show escQuotes (c :: r) = c :: escQuotes r from by
            simp [escQuotes, hc]]
        rw [List.cons_append, tokGo, if_neg hc]
        rw [ih (c :: cur) l fields]
        simp [List.append_assoc]

theorem mem_escQuotes (c : Char) (l : List Char) (h : c ∈ escQuotes l) :
    c ∈ l ∨ c = '"' := by
  induction l with
  | nil => exact absurd h (by simp [escQuotes])
  | cons x r ih =>
      by_cases hx : x = '"'
      · subst hx
        rw [show escQuotes ('"' :: r) = '"' :: '"' :: escQuotes r from rfl] at h
        simp only [List.mem_cons] at h
        rcases h with rfl | rfl | h
        · exact Or.inr rfl
        · exact Or.inr rfl
        · rcases ih h with h' | h'
          · exact Or.inl (by simp [h'])
          · exact Or.inr h'
      · rw [show escQuotes (x :: r) = x :: escQuotes r from by
            simp [escQuotes, hx]] at h
        simp only [List.mem_cons] at h
        rcases h with rfl | h
        · exact Or.inl (by simp)
        · rcases ih h with h' | h'
          · exact Or.inl (by simp [h'])
          · exact Or.inr h'

theorem mem_encodeField (c : Char) (s : String) (h : c ∈ encodeField s) :
    c ∈ s.toList ∨ c = '"' := by
  unfold encodeField at h
  split at h
  · simp only [List.mem_cons] at h
    rcases h with rfl | h
    · exact Or.inr rfl
    · rcases List.mem_append.mp h with h' | h'
      · exact mem_escQuotes c _ h'
      · exact Or.inr (List.mem_singleton.mp h')
  · exact Or.inl h

theorem tok_field (s : String) :
    (∀ (l : List Char) (fields : List String),
      tokGo .fieldStart [] (encodeField s ++ '|' :: l) fields =
        tokGo .fieldStart [] l (fields ++ [s])) ∧
    (∀ fields : List String,
      tokGo .fieldStart [] (encodeField s) fields = .ok (fields ++ [s])) := by
  by_cases hq : needsQuote s
  · have henc : encodeField s = '"' :: (escQuotes s.toList ++ ['"']) := by
      simp [encodeField, hq]
    have harg : (s.toList.reverse ++ ([] : List Char)).reverse.asString = s := by
      rw [List.append_nil, List.reverse_reverse]
      exact String.asString_toList s
    constructor
    · intro l fields
      rw [henc, List.cons_append, tokGo, if_pos rfl, List.append_assoc]
      rw [show (['"'] : List Char) ++ '|' :: l = '"' :: '|' :: l from rfl]
      rw [tokGo_quoted s.toList [] ('|' :: l) fields]
      rw [tokGo, if_neg (by decide), if_pos rfl, harg]
    · intro fields
      rw [henc, tokGo, if_pos rfl]
      rw [show escQuotes s.toList ++ ['"'] = escQuotes s.toList ++ '"' :: [] from rfl]
      rw [tokGo_quoted s.toList [] [] fields]
      rw [show tokGo .afterQuote (s.toList.reverse ++ []) [] fields =
        .ok (fields ++ [(s.toList.reverse ++ ([] : List Char)).reverse.asString])
          from rfl, harg]
  · have hchars : ∀ c ∈ s.toList, c ≠ '|' ∧ c ≠ '"' := by
      intro c hc
      unfold needsQuote at hq
      simp only [List.any_eq_true, not_exists, Bool.or_eq_true, decide_eq_true_eq,
        not_or] at hq
      push_neg at hq
      have := hq c hc
      tauto
    have henc : encodeField s = s.toList := by simp [encodeField, hq]
    cases hsl : s.toList with
    | nil =>
        have hse : s = "" := by
          cases s with
          | mk data =>
              simp only [String.toList] at hsl
              rw [hsl]
        subst hse
        constructor
        · intro l fields
          rw [henc]
          rw [show ("" : String).toList ++ '|' :: l = '|' :: l from rfl]
          rw [tokGo, if_neg (by decide), if_pos rfl]
          rfl
        · intro fields
          rw [henc]
          rfl
    | cons c0 r =>
        have hc0 := hchars c0 (by rw [hsl]; simp)
        constructor
        · intro l fields
          rw [henc, hsl, List.cons_append, tokGo, if_neg hc0.2, if_neg hc0.1]
          rw [tokGo_plain r (fun x hx => hchars x (by rw [hsl]; simp [hx]))
            [c0] ('|' :: l) fields]
          rw [tokGo, if_pos rfl]
          have : (r.reverse ++ [c0]).reverse.asString = s := by
            simp only [List.reverse_append, List.reverse_reverse,
              List.reverse_cons, List.reverse_nil, List.nil_append]
            rw [show ([c0] : List Char) ++ r = c0 :: r from rfl, ← hsl]
            exact String.asString_toList s
          rw [this]
        · intro fields
          rw [henc, hsl]
          rw [show (c0 :: r : List Char) = c0 :: (r ++ []) from by simp]
          rw [tokGo, if_neg hc0.2, if_neg hc0.1]
          rw [tokGo_plain r (fun x hx => hchars x (by rw [hsl]; simp [hx]))
            [c0] [] fields]
          rw [show tokGo .plain (r.reverse ++ [c0]) [] fields =
            .ok (fields ++ [(r.reverse ++ [c0]).reverse.asString]) from rfl]
          have : (r.reverse ++ [c0]).reverse.asString = s := by
            simp only [List.reverse_append, List.reverse_reverse,
              List.reverse_cons, List.reverse_nil, List.nil_append]
            rw [show ([c0] : List Char) ++ r = c0 :: r from rfl, ← hsl]
            exact String.asString_toList s
          rw [this]

theorem tokenizeRow_encodeRowCells (q : String × String × String × String) :
    tokenizeRow (encodeRowCells q) = .ok [q.1, q.2.1, q.2.2.1, q.2.2.2] := by
  obtain ⟨c1, c2, c3, c4⟩ := q
  unfold tokenizeRow encodeRowCells
  dsimp only
  rw [List.toList_asString]
  rw [(tok_field c1).1]
  rw [(tok_field c2).1]
  rw [(tok_field c3).1]
  rw [(tok_field c4).2]
  rfl

theorem splitNewlines_append (l m : List Char) (h : '\n' ∉ l) :
    splitNewlines (l ++ '\n' :: m) = l :: splitNewlines m := by
  induction l with
  | nil =>
      rw [List.nil_append, splitNewlines, if_pos rfl]
  | cons c r ih =>
      have hc : c ≠ '\n' := fun hc => h (by simp [hc])
      rw [List.cons_append, splitNewlines, if_neg hc,
        ih (fun hm => h (by simp [hm]))]

theorem compactLines (rows : List String) (hnl : ∀ r ∈ rows, '\n' ∉ r.toList)
    (hne : ∀ r ∈ rows, r ≠ "") :
    ((splitNewlines (joinLines rows)).map List.asString).filter (· ≠ "") = rows := by
  induction rows with
  | nil => rfl
  | cons r rest ih =>
      rw [show joinLines (r :: rest) = r.toList ++ '\n' :: joinLines rest from rfl]
      rw [splitNewlines_append _ _ (hnl r (by simp))]
      rw [List.map_cons, String.asString_toList, List.filter_cons]
      rw [ih (fun x hx => hnl x (by simp [hx])) (fun x hx => hne x (by simp [hx]))]
      rw [if_pos (by simp [hne r (by simp)])]

theorem csvSafe_parts (s : String) (h : csvSafeString s = true) :
    isNaTok s = false ∧ isIntString s = false ∧ isFloatLike s = false ∧
      isBoolString s = false ∧ (∀ c ∈ s.toList, c ≠ '\n' ∧ c ≠ '\r') := by
  unfold csvSafeString at h
  simp only [Bool.and_eq_true, Bool.not_eq_true', List.all_eq_true,
    Bool.and_eq_true, decide_eq_true_eq] at h
  obtain ⟨⟨⟨⟨hnl, hna⟩, hint⟩, hfl⟩, hbool⟩ := h
  exact ⟨hna, hint, hfl, hbool, hnl⟩

theorem inferColumn_safe (cells : List String)
    (h : ∀ s ∈ cells, s = "" ∨ csvSafeString s = true) :
    inferColumn cells = .ok (cells.map cellOfRaw) := by
  unfold inferColumn
  by_cases hall : cells.all isNaTok = true
  · rw [if_pos hall]
    congr 1
    apply List.map_congr_left
    intro s hs
    have hna : isNaTok s = true := by
      rw [List.all_eq_true] at hall
      exact hall s hs
    simp [cellOfRaw, hna]
  · rw [if_neg hall]
    have hwit : ∃ s ∈ cells, csvSafeString s = true := by
      by_contra hc
      push_neg at hc
      apply hall
      rw [List.all_eq_true]
      intro s hs
      rcases h s hs with rfl | hsafe
      · decide
      · exact absurd hsafe (by simpa using hc s hs)
    obtain ⟨w, hw, hwsafe⟩ := hwit
    obtain ⟨wna, wint, wfl, wbool, _⟩ := csvSafe_parts w hwsafe
    have hb2 : cells.all (fun s => isNaTok s || isIntString s) = false := by
      rw [Bool.eq_false_iff]
      intro hallb
      rw [List.all_eq_true] at hallb
      have := hallb w hw
      rw [wna, wint] at this
      exact Bool.noConfusion this
    have hb3 : cells.all (fun s => isNaTok s || isBoolString s) = false := by
      rw [Bool.eq_false_iff]
      intro hallb
      rw [List.all_eq_true] at hallb
      have := hallb w hw
      rw [wna, wbool] at this
      exact Bool.noConfusion this
    have hb4 : cells.all
        (fun s => isNaTok s || isIntString s || isFloatLike s) = false := by
      rw [Bool.eq_false_iff]
      intro hallb
      rw [List.all_eq_true] at hallb
      have := hallb w hw
      rw [wna, wint, wfl] at this
      exact Bool.noConfusion this
    rw [hb2, hb3, hb4]
    simp only [Bool.false_eq_true, if_false]
    rfl

theorem encodeRowCells_ne_empty (q : String × String × String × String) :
    encodeRowCells q ≠ "" := by
  unfold encodeRowCells
  intro h
  have h2 := congrArg String.toList h
  rw [List.toList_asString] at h2
  simp only [String.toList_empty, List.append_eq_nil] at h2
  exact List.noConfusion h2.2

theorem mapM_eq_map {α β : Type} (f : α → Except PyError β) (g : α → β)
    (l : List α) (h : ∀ a ∈ l, f a = .ok (g a)) : l.mapM f = .ok (l.map g) := by
  induction l with
  | nil => rfl
  | cons a r ih =>
      rw [List.mapM_cons, h a (by simp), ih fun x hx => h x (by simp [hx])]
      rfl

theorem mapM_map_eq_map {α β γ : Type} (f : β → Except PyError γ) (e : α → β)
    (g : α → γ) (l : List α) (h : ∀ a ∈ l, f (e a) = .ok (g a)) :
    (l.map e).mapM f = .ok (l.map g) := by
  induction l with
  | nil => rfl
  | cons a r ih =>
      rw [List.map_cons, List.mapM_cons, h a (by simp),
        ih fun x hx => h x (by simp [hx])]
      rfl

theorem rowsOfCols_map {α : Type} (g1 g2 g3 g4 : α → PyCell) (l : List α) :
    rowsOfCols (l.map g1) (l.map g2) (l.map g3) (l.map g4) =
      l.map fun a => ⟨g1 a, g2 a, g3 a, g4 a⟩ := by
  induction l with
  | nil => rfl
  | cons a r ih => simp [rowsOfCols, ih]

theorem readCSV_encoded (qs : List (String × String × String × String))
    (hne : qs ≠ [])
    (hsafe : ∀ q ∈ qs, (q.1 = "" ∨ csvSafeString q.1 = true) ∧
      (q.2.1 = "" ∨ csvSafeString q.2.1 = true) ∧
      (q.2.2.1 = "" ∨ csvSafeString q.2.2.1 = true) ∧
      (q.2.2.2 = "" ∨ csvSafeString q.2.2.2 = true)) :
    readCSV (qs.map encodeRowCells) = .ok (qs.map rowOfRaw) := by
  unfold readCSV
  rw [List.filter_eq_self.mpr (by
    intro a ha
    obtain ⟨q, _, rfl⟩ := List.mem_map.mp ha
    simp [encodeRowCells_ne_empty q])]
  rw [if_neg (by
    intro hemp
    rw [List.isEmpty_iff] at hemp
    exact hne (List.map_eq_nil_iff.mp hemp))]
  simp only [bind, Except.bind]
  rw [mapM_map_eq_map _ encodeRowCells
    (fun q => [q.1, q.2.1, q.2.2.1, q.2.2.2]) _ (by
    intro q _
    rw [tokenizeRow_encodeRowCells q]
    rfl)]
  dsimp only
  rw [List.map_map, List.map_map, List.map_map, List.map_map]
  rw [show ((fun fs : List String => fs.getD 0 "") ∘
      fun q : String × String × String × String =>
        [q.1, q.2.1, q.2.2.1, q.2.2.2]) = (fun q => q.1) from by
    funext q; rfl]
  rw [show ((fun fs : List String => fs.getD 1 "") ∘
      fun q : String × String × String × String =>
        [q.1, q.2.1, q.2.2.1, q.2.2.2]) = (fun q => q.2.1) from by
    funext q; rfl]
  rw [show ((fun fs : List String => fs.getD 2 "") ∘
      fun q : String × String × String × String =>
        [q.1, q.2.1, q.2.2.1, q.2.2.2]) = (fun q => q.2.2.1) from by
    funext q; rfl]
  rw [show ((fun fs : List String => fs.getD 3 "") ∘
      fun q : String × String × String × String =>
        [q.1, q.2.1, q.2.2.1, q.2.2.2]) = (fun q => q.2.2.2) from by
    funext q; rfl]
  rw [inferColumn_safe _ (by
    intro s hs
    obtain ⟨q, hq, rfl⟩ := List.mem_map.mp hs
    exact (hsafe q hq).1)]
  dsimp only
  rw [inferColumn_safe _ (by
    intro s hs
    obtain ⟨q, hq, rfl⟩ := List.mem_map.mp hs
    exact (hsafe q hq).2.1)]
  dsimp only
  rw [inferColumn_safe _ (by
    intro s hs
    obtain ⟨q, hq, rfl⟩ := List.mem_map.mp hs
    exact (hsafe q hq).2.2.1)]
  dsimp only
  rw [inferColumn_safe _ (by
    intro s hs
    obtain ⟨q, hq, rfl⟩ := List.mem_map.mp hs
    exact (hsafe q hq).2.2.2)]
  dsimp only
  rw [List.map_map, List.map_map, List.map_map, List.map_map]
  rw [rowsOfCols_map]
  rfl

theorem pad2_digit (n : Nat) : ∀ c ∈ pad2 n, c.isDigit = true := by
  intro c hc
  unfold pad2 at hc
  simp only [List.mem_cons, List.not_mem_nil, or_false] at hc
  rcases hc with rfl | rfl
  · exact (digit_facts _ (Nat.mod_lt _ (by omega))).1
  · exact (digit_facts _ (Nat.mod_lt _ (by omega))).1

theorem pad4_digit (n : Nat) : ∀ c ∈ pad4 n, c.isDigit = true := by
  intro c hc
  unfold pad4 at hc
  simp only [List.mem_cons, List.not_mem_nil, or_false] at hc
  rcases hc with rfl | rfl | rfl | rfl <;>
    exact (digit_facts _ (Nat.mod_lt _ (by omega))).1

theorem pad6_digit (n : Nat) : ∀ c ∈ pad6 n, c.isDigit = true := by
  intro c hc
  unfold pad6 at hc
  simp only [List.mem_cons, List.not_mem_nil, or_false] at hc
  rcases hc with rfl | rfl | rfl | rfl | rfl | rfl <;>
    exact (digit_facts _ (Nat.mod_lt _ (by omega))).1

theorem mem_isoChars (d : PyDatetime) (c : Char) (hc : c ∈ d.isoChars) :
    c.isDigit = true ∨ c = '-' ∨ c = 'T' ∨ c = ':' ∨ c = '.' := by
  unfold PyDatetime.isoChars at hc
  rcases List.mem_append.mp hc with h | h
  · exact .inl (pad4_digit _ _ h)
  rcases List.mem_cons.mp h with rfl | h
  · exact .inr (.inl rfl)
  rcases List.mem_append.mp h with h | h
  · exact .inl (pad2_digit _ _ h)
  rcases List.mem_cons.mp h with rfl | h
  · exact .inr (.inl rfl)
  rcases List.mem_append.mp h with h | h
  · exact .inl (pad2_digit _ _ h)
  rcases List.mem_cons.mp h with rfl | h
  · exact .inr (.inr (.inl rfl))
  rcases List.mem_append.mp h with h | h
  · exact .inl (pad2_digit _ _ h)
  rcases List.mem_cons.mp h with rfl | h
  · exact .inr (.inr (.inr (.inl rfl)))
  rcases List.mem_append.mp h with h | h
  · exact .inl (pad2_digit _ _ h)
  rcases List.mem_cons.mp h with rfl | h
  · exact .inr (.inr (.inr (.inl rfl)))
  rcases List.mem_append.mp h with h | h
  · exact .inl (pad2_digit _ _ h)
  by_cases hus : d.microsecond = 0
  · rw [if_pos hus] at h
    exact absurd h (List.not_mem_nil c)
  · rw [if_neg hus] at h
    rcases List.mem_cons.mp h with rfl | h
    · exact .inr (.inr (.inr (.inr rfl)))
    · exact .inl (pad6_digit _ _ h)

theorem isoChars_no_nl (d : PyDatetime) :
    ∀ c ∈ d.isoChars, c ≠ '\n' ∧ c ≠ '\r' := by
  intro c hc
  rcases mem_isoChars d c hc with h | rfl | rfl | rfl | rfl
  · refine ⟨?_, ?_⟩ <;> (intro he; rw [he] at h; exact absurd h (by decide))
  all_goals exact ⟨by decide, by decide⟩

theorem isoChars_length (d : PyDatetime) : 19 ≤ d.isoChars.length := by
  unfold PyDatetime.isoChars
  by_cases hus : d.microsecond = 0
  · rw [if_pos hus]
    simp only [pad2, pad4, List.length_append, List.length_cons,
      List.length_nil]
    omega
  · rw [if_neg hus]
    simp only [pad2, pad4, pad6, List.length_append, List.length_cons,
      List.length_nil]
    omega

theorem length_asString (l : List Char) : (List.asString l).length = l.length :=
  rfl

theorem dash_mem_isoChars (d : PyDatetime) : '-' ∈ d.isoChars := by
  unfold PyDatetime.isoChars
  exact List.mem_append.mpr (Or.inr (List.mem_cons_self _ _))

theorem colon_mem_isoChars (d : PyDatetime) : ':' ∈ d.isoChars := by
  unfold PyDatetime.isoChars
  refine List.mem_append.mpr (Or.inr (List.mem_cons_of_mem _ ?_))
  refine List.mem_append.mpr (Or.inr (List.mem_cons_of_mem _ ?_))
  refine List.mem_append.mpr (Or.inr (List.mem_cons_of_mem _ ?_))
  exact List.mem_append.mpr (Or.inr (List.mem_cons_self _ _))

theorem isNaTok_long (s : String) (h : 10 ≤ s.length) : isNaTok s = false := by
  rw [Bool.eq_false_iff]
  intro hmem
  unfold isNaTok List.contains at hmem
  have hm := List.mem_of_elem_eq_true hmem
  unfold naTokens at hm
  simp only [List.mem_cons, List.not_mem_nil, or_false] at hm
  rcases hm with rfl | rfl | rfl | rfl | rfl | rfl | rfl | rfl | rfl | rfl |
    rfl | rfl | rfl | rfl | rfl | rfl | rfl <;>
    exact absurd h (by decide)

theorem isBoolString_long (s : String) (h : 10 ≤ s.length) :
    isBoolString s = false := by
  rw [Bool.eq_false_iff]
  intro hb
  unfold isBoolString at hb
  simp only [Bool.or_eq_true, decide_eq_true_eq] at hb
  rcases hb with ((((rfl | rfl) | rfl) | rfl) | rfl) | rfl <;>
    exact absurd h (by decide)

theorem dropWhile_keeps (p : Char → Bool) (l : List Char) (c : Char)
    (hc : c ∈ l) (hp : p c = false) : c ∈ l.dropWhile p := by
  induction l with
  | nil => exact absurd hc (List.not_mem_nil c)
  | cons a r ih =>
      rw [List.dropWhile_cons]
      by_cases ha : p a = true
      · rw [if_pos ha]
        rcases List.mem_cons.mp hc with rfl | hcr
        · rw [hp] at ha
          exact Bool.noConfusion ha
        · exact ih hcr
      · rw [if_neg ha]
        exact hc

theorem mem_stripWs (l : List Char) (c : Char) (hc : c ∈ l)
    (hp : isSpaceCh c = false) : c ∈ stripWs l := by
  unfold stripWs
  rw [List.mem_reverse]
  refine dropWhile_keeps _ _ _ ?_ hp
  rw [List.mem_reverse]
  exact dropWhile_keeps _ _ _ hc hp

theorem mem_dropSign (l : List Char) (c : Char) (hc : c ∈ l)
    (h5 : c ≠ '-') (h6 : c ≠ '+') :
    c ∈ (match l with
      | '-' :: r => r
      | '+' :: r => r
      | r => r) := by
  split
  · rename_i r
    rcases List.mem_cons.mp hc with rfl | hcr
    · exact absurd rfl h5
    · exact hcr
  · rename_i r
    rcases List.mem_cons.mp hc with rfl | hcr
    · exact absurd rfl h6
    · exact hcr
  · exact hc

theorem isIntString_false_of_mem (s : String) (c : Char) (hc : c ∈ s.toList)
    (h1 : c.isDigit = false) (h2 : c ≠ '-') (h3 : c ≠ '+')
    (h4 : isSpaceCh c = false) : isIntString s = false := by
  have hcs : c ∈ stripWs s.toList := mem_stripWs _ c hc h4
  unfold isIntString
  split
  · rename_i r heq
    rw [heq] at hcs
    rw [Bool.eq_false_iff]
    intro hint
    simp only [Bool.and_eq_true, List.all_eq_true] at hint
    rcases List.mem_cons.mp hcs with rfl | hcr
    · exact h2 rfl
    · have hdig := hint.1.2 c hcr
      rw [h1] at hdig
      exact Bool.noConfusion hdig
  · rename_i r heq
    rw [heq] at hcs
    rw [Bool.eq_false_iff]
    intro hint
    simp only [Bool.and_eq_true, List.all_eq_true] at hint
    rcases List.mem_cons.mp hcs with rfl | hcr
    · exact h3 rfl
    · have hdig := hint.1.2 c hcr
      rw [h1] at hdig
      exact Bool.noConfusion hdig
  · rw [Bool.eq_false_iff]
    intro hint
    simp only [Bool.and_eq_true, List.all_eq_true] at hint
    have hdig := hint.1.2 c hcs
    rw [h1] at hdig
    exact Bool.noConfusion hdig

theorem isFloatLike_false_of_mem (s : String) (c : Char) (hc : c ∈ s.toList)
    (h1 : floatChar c = false) (h4 : isSpaceCh c = false)
    (h5 : c ≠ '-') (h6 : c ≠ '+')
    (h7 : c.toLower ∉ "infinity".toList) : isFloatLike s = false := by
  have hcs : c ∈ stripWs s.toList := mem_stripWs _ c hc h4
  rw [Bool.eq_false_iff]
  intro hfl
  unfold isFloatLike at hfl
  dsimp only at hfl
  rw [Bool.or_eq_true] at hfl
  rcases hfl with hnum | hinf
  · simp only [Bool.and_eq_true, List.all_eq_true] at hnum
    have hfc := hnum.1.1.2 c hcs
    rw [h1] at hfc
    exact Bool.noConfusion hfc
  · simp only [isInfLike, Bool.or_eq_true, decide_eq_true_eq] at hinf
    have hlow := List.mem_map_of_mem Char.toLower (mem_dropSign _ c hcs h5 h6)
    rcases hinf with heq | heq
    · rw [heq] at hlow
      refine h7 ?_
      have hl := hlow
      simp only [show ("inf".toList) = ['i', 'n', 'f'] from rfl, List.mem_cons,
        List.not_mem_nil, or_false] at hl
      rcases hl with h | h | h
      all_goals (rw [h]; decide)
    · rw [heq] at hlow
      exact h7 hlow

theorem csvSafe_isoformat (d : PyDatetime) :
    csvSafeString d.isoformat = true := by
  have htl : d.isoformat.toList = d.isoChars := by
    rw [PyDatetime.isoformat, List.toList_asString]
  have hlen : 10 ≤ d.isoformat.length := by
    rw [PyDatetime.isoformat, length_asString]
    have := isoChars_length d
    omega
  have hcol : ':' ∈ d.isoformat.toList := by
    rw [htl]
    exact colon_mem_isoChars d
  unfold csvSafeString
  rw [isNaTok_long _ hlen,
    isIntString_false_of_mem _ ':' hcol (by decide) (by decide) (by decide)
      (by decide),
    isFloatLike_false_of_mem _ ':' hcol (by decide) (by decide) (by decide)
      (by decide) (by decide),
    isBoolString_long _ hlen]
  simp only [Bool.not_false, Bool.and_true]
  rw [List.all_eq_true]
  intro c hcm
  have := isoChars_no_nl d c (htl ▸ hcm)
  simp [this.1, this.2]

theorem csvSafe_value (ty : EventType) : csvSafeString ty.value = true := by
  cases ty <;> decide

theorem csvSafe_json (a : RecordedAction) :
    csvSafeString (jsonOfSavedAction a.save) = true := by
  obtain ⟨b⟩ := a
  cases b <;> decide

theorem jsonLoads_save (a : RecordedAction) :
    jsonLoadsAction (jsonOfSavedAction a.save) = .ok a.save := by
  obtain ⟨b⟩ := a
  cases b <;> decide

theorem ofTag_value (ty : EventType) : EventType.ofTag ty.value = .ok ty := by
  cases ty <;> rfl

theorem cellOfRaw_safe (s : String) (h : csvSafeString s = true) :
    cellOfRaw s = .pystr s := by
  simp [cellOfRaw, (csvSafe_parts s h).1]

theorem wfCompact_parts (e : Event) (h : wfEventCompact e = true) :
    e.timestamp.valid = true ∧
      (e.agent = .pynone ∨ ∃ s, e.agent = .pystr s ∧ csvSafeString s = true) ∧
      ((e.type = .Action ∧ ∃ a, e.payload = .action a) ∨
        (e.type ≠ .Action ∧ (e.payload = .pynone ∨
          ∃ s, e.payload = .str s ∧ csvSafeString s = true))) := by
  obtain ⟨ty, ts, ag, pl, ac⟩ := e
  unfold wfEventCompact at h
  simp only [Bool.and_eq_true] at h
  obtain ⟨⟨htv, hag⟩, hpl⟩ := h
  dsimp only at htv hag hpl ⊢
  refine ⟨htv, ?_, ?_⟩
  · cases ag
    · exact .inl rfl
    · exact Bool.noConfusion hag
    · exact .inr ⟨_, rfl, hag⟩
    · exact Bool.noConfusion hag
  · cases ty <;> cases pl
    · exact .inr ⟨by decide, .inl rfl⟩
    · exact .inr ⟨by decide, .inr ⟨_, rfl, hpl⟩⟩
    · exact Bool.noConfusion hpl
    · exact Bool.noConfusion hpl
    · exact .inr ⟨by decide, .inl rfl⟩
    · exact .inr ⟨by decide, .inr ⟨_, rfl, hpl⟩⟩
    · exact Bool.noConfusion hpl
    · exact Bool.noConfusion hpl
    · exact Bool.noConfusion hpl
    · exact Bool.noConfusion hpl
    · exact Bool.noConfusion hpl
    · exact .inl ⟨rfl, _, rfl⟩

theorem save_wf (e : Event) (h : wfEventCompact e = true) :
    Event.save e = .ok (stdSavedEvent e) := by
  obtain ⟨htv, hag, hpl⟩ := wfCompact_parts e h
  obtain ⟨ty, ts, ag, pl, ac⟩ := e
  dsimp only at hpl
  rcases hpl with ⟨rfl, a, rfl⟩ | ⟨hty, rfl | ⟨s, rfl, _⟩⟩
  · rfl
  · cases ty
    · rfl
    · rfl
    · exact absurd rfl hty
  · cases ty
    · rfl
    · rfl
    · exact absurd rfl hty

theorem compact_wf (e : Event) (h : wfEventCompact e = true) :
    _compact_saved_event (stdSavedEvent e) = .ok (compactSavedEvent e) := by
  obtain ⟨htv, hag, hpl⟩ := wfCompact_parts e h
  obtain ⟨ty, ts, ag, pl, ac⟩ := e
  dsimp only at hpl
  rcases hpl with ⟨rfl, a, rfl⟩ | ⟨hty, rfl | ⟨s, rfl, _⟩⟩
  · unfold _compact_saved_event stdSavedEvent stdSavedPayload
      compactSavedEvent compactSavedPayload
    dsimp only [EventType.value]
    rw [if_pos (by decide : PyCell.pyEq (.pystr "action") (.pystr "action") = true)]
  · cases ty
    · unfold _compact_saved_event stdSavedEvent stdSavedPayload
        compactSavedEvent compactSavedPayload
      dsimp only [EventType.value]
      rw [if_neg (by decide :
        ¬PyCell.pyEq (.pystr "utterance") (.pystr "action") = true)]
      rfl
    · unfold _compact_saved_event stdSavedEvent stdSavedPayload
        compactSavedEvent compactSavedPayload
      dsimp only [EventType.value]
      rw [if_neg (by decide :
        ¬PyCell.pyEq (.pystr "leave") (.pystr "action") = true)]
      rfl
    · exact absurd rfl hty
  · cases ty
    · unfold _compact_saved_event stdSavedEvent stdSavedPayload
        compactSavedEvent compactSavedPayload
      dsimp only [EventType.value]
      rw [if_neg (by decide :
        ¬PyCell.pyEq (.pystr "utterance") (.pystr "action") = true)]
      rfl
    · unfold _compact_saved_event stdSavedEvent stdSavedPayload
        compactSavedEvent compactSavedPayload
      dsimp only [EventType.value]
      rw [if_neg (by decide :
        ¬PyCell.pyEq (.pystr "leave") (.pystr "action") = true)]
      rfl
    · exact absurd rfl hty

theorem writeRow_compact (e : Event) (h : wfEventCompact e = true) :
    writeRow (compactSavedEvent e) = .ok (encodeRowCells (compactRawQuad e)) := by
  obtain ⟨htv, hag, hpl⟩ := wfCompact_parts e h
  obtain ⟨ty, ts, ag, pl, ac⟩ := e
  dsimp only at hag hpl
  rcases hag with rfl | ⟨as, rfl, _⟩ <;>
    rcases hpl with ⟨rfl, a, rfl⟩ | ⟨hty, rfl | ⟨s, rfl, _⟩⟩ <;>
    first
      | rfl
      | (cases ty <;> first | rfl | exact absurd rfl hty)

theorem wfCompact_wfStd (e : Event) (h : wfEventCompact e = true) :
    wfEventStd e = true := by
  obtain ⟨htv, hag, hpl⟩ := wfCompact_parts e h
  obtain ⟨ty, ts, ag, pl, ac⟩ := e
  dsimp only at htv hag hpl
  unfold wfEventStd wfAgentCell
  dsimp only
  rw [htv]
  have hagc : (PyCell.isStr ag || !PyCell.truthy ag) = true := by
    rcases hag with rfl | ⟨as, rfl, _⟩ <;> rfl
  rw [hagc]
  simp only [Bool.true_and]
  rcases hpl with ⟨rfl, a, rfl⟩ | ⟨hty, rfl | ⟨s, rfl, _⟩⟩
  · rfl
  · cases ty
    · rfl
    · rfl
    · exact absurd rfl hty
  · cases ty
    · rfl
    · rfl
    · exact absurd rfl hty

theorem load_std (e : Event) (h : wfEventCompact e = true) :
    Event.load (stdSavedEvent e) = .ok e.stripActed := by
  obtain ⟨se, hs, hl⟩ := event_roundtrip_std e (wfCompact_wfStd e h)
  have h2 : Except.ok (ε := PyError) se = .ok (stdSavedEvent e) :=
    hs.symm.trans (save_wf e h)
  injection h2 with h2
  rw [← h2]
  exact hl

theorem uncompact_row (e : Event) (h : wfEventCompact e = true)
    (last : PyDatetime) :
    _uncompact_saved_event (rowOfRaw (compactRawQuad e)) last =
      .ok (uncompactedSavedEvent e) := by
  obtain ⟨htv, hag, hpl⟩ := wfCompact_parts e h
  obtain ⟨ty, ts, ag, pl, ac⟩ := e
  dsimp only at htv hag hpl
  have hagcell : cellOfRaw (agentRaw ag) = ag := by
    rcases hag with rfl | ⟨as, rfl, hsa⟩
    · decide
    · exact cellOfRaw_safe as hsa
  rcases hpl with ⟨rfl, a, rfl⟩ | ⟨hty, rfl | ⟨s, rfl, hss⟩⟩
  · unfold _uncompact_saved_event _uncompact_timestamp rowOfRaw compactRawQuad
    dsimp only [compactPayloadRaw, EventType.value]
    rw [cellOfRaw_safe _ (csvSafe_isoformat ts), hagcell,
      cellOfRaw_safe _ (csvSafe_json a),
      show cellOfRaw "action" = .pystr "action" from by decide]
    simp only [bind, Except.bind, convert_datetime]
    rw [fromisoformat_isoformat ts htv]
    dsimp only
    rw [if_pos (by decide : PyCell.pyEq (.pystr "action") (.pystr "action") = true)]
    rw [jsonLoads_save a]
    rfl
  · cases ty <;> [skip; skip; exact absurd rfl hty] <;>
    · unfold _uncompact_saved_event _uncompact_timestamp rowOfRaw compactRawQuad
      dsimp only [compactPayloadRaw, EventType.value]
      rw [cellOfRaw_safe _ (csvSafe_isoformat ts), hagcell]
      simp only [bind, Except.bind, convert_datetime]
      rw [fromisoformat_isoformat ts htv]
      dsimp only
      first
        | rw [if_neg (by decide :
            ¬PyCell.pyEq (cellOfRaw "utterance") (.pystr "action") = true)]
        | rw [if_neg (by decide :
            ¬PyCell.pyEq (cellOfRaw "leave") (.pystr "action") = true)]
      rfl
  · cases ty <;> [skip; skip; exact absurd rfl hty] <;>
    · unfold _uncompact_saved_event _uncompact_timestamp rowOfRaw compactRawQuad
      dsimp only [compactPayloadRaw, EventType.value]
      rw [cellOfRaw_safe _ (csvSafe_isoformat ts), hagcell, cellOfRaw_safe s hss]
      simp only [bind, Except.bind, convert_datetime]
      rw [fromisoformat_isoformat ts htv]
      dsimp only
      first
        | rw [if_neg (by decide :
            ¬PyCell.pyEq (cellOfRaw "utterance") (.pystr "action") = true)]
        | rw [if_neg (by decide :
            ¬PyCell.pyEq (cellOfRaw "leave") (.pystr "action") = true)]
      rfl

theorem load_uncompacted (e : Event) (h : wfEventCompact e = true) :
    Event.load (uncompactedSavedEvent e) = .ok e.stripActed := by
  obtain ⟨htv, hag, hpl⟩ := wfCompact_parts e h
  obtain ⟨ty, ts, ag, pl, ac⟩ := e
  dsimp only at hag hpl
  have hagcell : wfAgentCell ag = true := by
    rcases hag with rfl | ⟨as, rfl, _⟩ <;> rfl
  rcases hpl with ⟨rfl, a, rfl⟩ | ⟨hty, rfl | ⟨s, rfl, _⟩⟩
  · simp only [Event.load, uncompactedSavedEvent, stdSavedPayload,
      EventType.value, EventType.ofTag, convert_datetime, bind, Except.bind,
      pure, Except.pure, Action.load, RecordedAction.save, recordedActionClass,
      Option.getD, Except.map, reduceIte,
      event_init_ok _ ts ag _ hagcell, Event.stripActed]
    try rfl
  · cases ty <;> [skip; skip; exact absurd rfl hty] <;>
    · simp only [Event.load, uncompactedSavedEvent, stdSavedPayload,
        EventType.value, EventType.ofTag, convert_datetime, bind, Except.bind,
        pure, Except.pure, reduceIte,
        event_init_ok _ ts ag _ hagcell, Event.stripActed]
      try rfl
  · cases ty <;> [skip; skip; exact absurd rfl hty] <;>
    · simp only [Event.load, uncompactedSavedEvent, stdSavedPayload,
        EventType.value, EventType.ofTag, convert_datetime, bind, Except.bind,
        pure, Except.pure, reduceIte,
        event_init_ok _ ts ag _ hagcell, Event.stripActed]
      try rfl

theorem quad_safe (e : Event) (h : wfEventCompact e = true) :
    ((compactRawQuad e).1 = "" ∨ csvSafeString (compactRawQuad e).1 = true) ∧
      ((compactRawQuad e).2.1 = "" ∨ csvSafeString (compactRawQuad e).2.1 = true) ∧
      ((compactRawQuad e).2.2.1 = "" ∨
        csvSafeString (compactRawQuad e).2.2.1 = true) ∧
      ((compactRawQuad e).2.2.2 = "" ∨
        csvSafeString (compactRawQuad e).2.2.2 = true) := by
  obtain ⟨htv, hag, hpl⟩ := wfCompact_parts e h
  obtain ⟨ty, ts, ag, pl, ac⟩ := e
  dsimp only at hag hpl
  refine ⟨.inr (csvSafe_value ty), .inr (csvSafe_isoformat ts), ?_, ?_⟩
  · rcases hag with rfl | ⟨as, rfl, hsa⟩
    · exact .inl rfl
    · exact .inr hsa
  · rcases hpl with ⟨rfl, a, rfl⟩ | ⟨hty, rfl | ⟨s, rfl, hss⟩⟩
    · exact .inr (csvSafe_json a)
    · cases ty
      · exact .inl rfl
      · exact .inl rfl
      · exact absurd rfl hty
    · cases ty
      · exact .inr hss
      · exact .inr hss
      · exact absurd rfl hty

theorem no_nl_part (s : String) (h : s = "" ∨ csvSafeString s = true)
    (c : Char) (hc : c ∈ encodeField s) : c ≠ '\n' := by
  rcases mem_encodeField c s hc with hcs | rfl
  · rcases h with rfl | hsafe
    · exact absurd hcs (List.not_mem_nil c)
    · exact ((csvSafe_parts s hsafe).2.2.2.2 c hcs).1
  · decide

theorem no_nl_encodeRow (e : Event) (h : wfEventCompact e = true) :
    '\n' ∉ (encodeRowCells (compactRawQuad e)).toList := by
  obtain ⟨h1, h2, h3, h4⟩ := quad_safe e h
  rw [encodeRowCells, List.toList_asString]
  intro hmem
  rcases List.mem_append.mp hmem with hm | hm
  · exact no_nl_part _ h1 _ hm rfl
  rcases List.mem_cons.mp hm with hbar | hm
  · exact absurd hbar (by decide)
  rcases List.mem_append.mp hm with hm | hm
  · exact no_nl_part _ h2 _ hm rfl
  rcases List.mem_cons.mp hm with hbar | hm
  · exact absurd hbar (by decide)
  rcases List.mem_append.mp hm with hm | hm
  · exact no_nl_part _ h3 _ hm rfl
  rcases List.mem_cons.mp hm with hbar | hm
  · exact absurd hbar (by decide)
  exact no_nl_part _ h4 _ hm rfl

theorem mapM_save_wf (evs : List Event)
    (h : ∀ e ∈ evs, wfEventCompact e = true) :
    evs.mapM Event.save = .ok (evs.map stdSavedEvent) :=
  mapM_eq_map _ _ _ fun e he => save_wf e (h e he)

theorem mapM_compact_wf (evs : List Event)
    (h : ∀ e ∈ evs, wfEventCompact e = true) :
    (evs.map stdSavedEvent).mapM _compact_saved_event =
      .ok (evs.map compactSavedEvent) :=
  mapM_map_eq_map _ _ _ _ fun e he => compact_wf e (h e he)

theorem mapM_writeRow (evs : List Event)
    (h : ∀ e ∈ evs, wfEventCompact e = true) :
    (evs.map compactSavedEvent).mapM writeRow =
      .ok (evs.map fun e => encodeRowCells (compactRawQuad e)) :=
  mapM_map_eq_map _ _ _ _ fun e he => writeRow_compact e (h e he)

theorem mapM_load_std (evs : List Event)
    (h : ∀ e ∈ evs, wfEventCompact e = true) :
    (evs.map stdSavedEvent).mapM Event.load =
      .ok (evs.map Event.stripActed) :=
  mapM_map_eq_map _ _ _ _ fun e he => load_std e (h e he)

theorem mapM_load_uncompacted (evs : List Event)
    (h : ∀ e ∈ evs, wfEventCompact e = true) :
    (evs.map uncompactedSavedEvent).mapM Event.load =
      .ok (evs.map Event.stripActed) :=
  mapM_map_eq_map _ _ _ _ fun e he => load_uncompacted e (h e he)

theorem uncompactEvents_map (evs : List Event)
    (h : ∀ e ∈ evs, wfEventCompact e = true) (last : PyDatetime) :
    uncompactEvents (evs.map fun e => rowOfRaw (compactRawQuad e)) last =
      .ok (evs.map uncompactedSavedEvent) := by
  induction evs generalizing last with
  | nil => rfl
  | cons e rest ih =>
      rw [List.map_cons]
      unfold uncompactEvents
      rw [uncompact_row e (h e (by simp)) last]
      dsimp only [uncompactedSavedEvent]
      rw [ih (fun x hx => h x (by simp [hx])) e.timestamp]
      rw [List.map_cons]
      rfl

theorem c3_std_eval (ep : Episode)
    (hevs : ∀ e ∈ ep.events, wfEventCompact e = true) :
    (Episode.save ep "standard" >>= Episode.load) =
      .ok ⟨ep.starter_id, ep.invited_id, ep.id, ep.timestamp,
        ep.events.map Event.stripActed⟩ := by
  unfold Episode.save
  simp only [bind, Except.bind, pure, Except.pure]
  rw [mapM_save_wf ep.events hevs]
  try dsimp only
  rw [if_neg (by decide : ¬("standard" : String) = "compact")]
  unfold Episode.load
  simp only [bind, Except.bind, pure, Except.pure]
  try dsimp only
  rw [if_neg (by decide : ¬("standard" : String) = "compact")]
  try dsimp only
  simp only [convert_datetime]
  rw [mapM_load_std ep.events hevs]

theorem c3_cpt_eval (ep : Episode)
    (hne : ep.events ≠ [])
    (hevs : ∀ e ∈ ep.events, wfEventCompact e = true) :
    (Episode.save ep "compact" >>= Episode.load) =
      .ok ⟨ep.starter_id, ep.invited_id, ep.id, ep.timestamp,
        ep.events.map Event.stripActed⟩ := by
  unfold Episode.save
  simp only [bind, Except.bind, pure, Except.pure]
  rw [mapM_save_wf ep.events hevs]
  try dsimp only
  simp only [if_true]
  unfold _compact_saved_episode
  simp only [bind, Except.bind, pure, Except.pure]
  try dsimp only
  rw [mapM_compact_wf ep.events hevs]
  try dsimp only
  rw [mapM_writeRow ep.events hevs]
  try dsimp only
  rw [compactLines _
    (by
      intro r hr
      obtain ⟨e, he, rfl⟩ := List.mem_map.mp hr
      exact no_nl_encodeRow e (hevs e he))
    (by
      intro r hr
      obtain ⟨e, he, rfl⟩ := List.mem_map.mp hr
      exact encodeRowCells_ne_empty _)]
  unfold Episode.load
  simp only [bind, Except.bind, pure, Except.pure]
  try dsimp only
  simp only [if_true]
  unfold _uncompact_saved_episode
  simp only [bind, Except.bind, pure, Except.pure]
  try dsimp only
  rw [show (ep.events.map fun e => encodeRowCells (compactRawQuad e)) =
      (ep.events.map compactRawQuad).map encodeRowCells from by
    rw [List.map_map]
    rfl]
  rw [readCSV_encoded (ep.events.map compactRawQuad)
    (fun hmap => hne (List.map_eq_nil_iff.mp hmap))
    (by
      intro q hq
      obtain ⟨e, he, rfl⟩ := List.mem_map.mp hq
      exact quad_safe e (hevs e he))]
  try dsimp only
  simp only [convert_datetime]
  try dsimp only
  rw [show (ep.events.map compactRawQuad).map rowOfRaw =
      ep.events.map fun e => rowOfRaw (compactRawQuad e) from by
    rw [List.map_map]
    rfl]
  rw [uncompactEvents_map ep.events hevs ep.timestamp]
  try dsimp only
  rw [mapM_load_uncompacted ep.events hevs]

/-- C3 (corrected): for an Episode with at least one event whose events all
have valid timestamps, `None`-or-CSV-safe string agents, and Action payloads
on Action events or `None`-or-CSV-safe string payloads otherwise,
`Episode.load (Episode.save L 'compact')` equals
`Episode.load (Episode.save L 'standard')`.  Without these restrictions the
two formats decode differently: pandas type inference can turn a digit-string
payload into an integer, and an empty episode fails to load from the compact
format (`EmptyDataError`) while loading fine from the standard one. -/
theorem c3_compact_roundtrip_amended (ep : Episode)
    (hne : ep.events ≠ [])
    (hevs : ∀ e ∈ ep.events, wfEventCompact e = true) :
    (Episode.save ep "compact" >>= Episode.load) =
      (Episode.save ep "standard" >>= Episode.load) := by
  rw [c3_std_eval ep hevs, c3_cpt_eval ep hne hevs]

/-- C3 counterexample: for the one-event episode whose utterance payload is
the digit string `"42"`, the compact round trip is NOT the standard round
trip: `read_csv` infers an integer column for the payload, so the decoded
payload is the int 42 instead of the string `"42"`. -/
theorem c3_compact_roundtrip_counterexample :
    (Episode.save demoNumericEpisode "compact" >>= Episode.load) ≠
      (Episode.save demoNumericEpisode "standard" >>= Episode.load) := by
  decide

/-- Witness for the amended C3 at a concrete episode mixing Utterance, Action
and Leave events. -/
theorem c3_compact_roundtrip_witness :
    demoEpisode.events ≠ [] ∧
      (Episode.save demoEpisode "compact" >>= Episode.load) =
        (Episode.save demoEpisode "standard" >>= Episode.load) :=
  ⟨by decide, c3_compact_roundtrip_amended demoEpisode (by decide) (by decide)⟩

end Due
